import Mathlib

/-!
Shallow embedding of the Taskify issue-tracking core: the workflow state
machine (`updateIssue`), issue creation (`createIssue`), the review-decision
endpoint (`reviewPOST`) and the closure-analytics aggregator (`aepSummary`).
Timestamps are modelled as natural numbers (milliseconds since the epoch);
the persistent store is an explicit record of tables.  JavaScript
truthiness on strings ("" and null/undefined are falsy) is modelled by the
`jsTruthyStr` family of helpers.
-/

namespace Taskify

/-! ### JS-style helpers -/

/-- Truthy value of an optional string: `null`/`undefined`/`""` are falsy. -/
def jsTruthyStr : Option String → Option String
  | some s => if s == "" then none else some s
  | none => none

/-- `a || b` on nullable strings, yielding `null` when both are falsy. -/
def jsOrOpt (a b : Option String) : Option String :=
  match jsTruthyStr a with
  | some s => some s
  | none => jsTruthyStr b

/-- `a || dflt` on a nullable string with a definite default. -/
def jsStrOr (a : Option String) (dflt : String) : String :=
  match jsTruthyStr a with
  | some s => s
  | none => dflt

/-- Whitespace for `String.prototype.trim`. -/
def isJsWhitespace (c : Char) : Bool :=
  c == ' ' || c == '\t' || c == '\n' || c == '\r'

/-- `String.prototype.trim`: strip leading and trailing whitespace. -/
def jsTrim (s : String) : String :=
  String.mk (((s.data.dropWhile isJsWhitespace).reverse.dropWhile isJsWhitespace).reverse)

def msPerDay : Nat := 86400000

/-- `setHours(0,0,0,0)`: truncate a timestamp to its date (local midnight). -/
def truncDay (t : Nat) : Nat := t / msPerDay * msPerDay

/-- `toISOString().slice(0, 10)`: the date-only rendering of a timestamp
(injective per calendar day, which is all the source relies on). -/
def dayStr (t : Nat) : String := toString (t / msPerDay)

/-! ### Data model -/

inductive StateType
  | backlog | unstarted | started | review | completed | canceled
deriving DecidableEq

structure WorkflowState where
  id : String
  teamId : String
  name : String
  type : StateType
deriving DecidableEq

structure Issue where
  id : String
  teamId : String
  number : Nat
  title : String
  description : Option String
  workflowStateId : String
  priority : String
  dueDate : Option Nat
  difficulty : Option String
  estimate : Option Nat
  parentId : Option String
  assigneeId : Option String
  assignee : Option String
  reviewedAt : Option Nat
  reviewerId : Option String
  reviewer : Option String
  completedAt : Option Nat
  projectId : Option String
  creatorId : String
  creator : String
  createdAt : Nat
  updatedAt : Nat
deriving DecidableEq

structure TeamMember where
  teamId : String
  userId : String
  userName : String
  role : String
deriving DecidableEq

structure IssueAssignee where
  issueId : String
  userId : String
  userName : String
deriving DecidableEq

structure IssueLabel where
  issueId : String
  labelId : String
deriving DecidableEq

structure Label where
  id : String
  projectId : String
deriving DecidableEq

structure Project where
  id : String
  teamId : String
deriving DecidableEq

/-- Structured activity metadata (the union of the JSON shapes the source
stores in the `metadata` column). -/
structure ActivityMetadata where
  title : Option String := none
  oldStatusId : Option String := none
  newStatusId : Option String := none
  reviewerId : Option String := none
  reviewerName : Option String := none
  reason : Option String := none
  approvedBy : Option String := none
  newReviewerId : Option String := none
deriving DecidableEq

structure IssueActivity where
  issueId : String
  userId : String
  userName : String
  action : String
  field : Option String := none
  oldValue : Option String := none
  newValue : Option String := none
  metadata : Option ActivityMetadata := none
deriving DecidableEq

structure Db where
  issues : List Issue
  workflowStates : List WorkflowState
  teamMembers : List TeamMember
  issueAssignees : List IssueAssignee
  issueLabels : List IssueLabel
  labels : List Label
  projects : List Project
  activities : List IssueActivity
deriving DecidableEq

def stateTypeOf (db : Db) (sid : String) : Option StateType :=
  (db.workflowStates.find? (fun s => s.id == sid)).map (fun s => s.type)

/-- The re-fetch inside the `workflowStateId` section: the current stage
type of the issue as stored. -/
def currentTypeOf (db : Db) (issueId : String) : Option StateType :=
  match db.issues.find? (fun i => i.id == issueId) with
  | some i => stateTypeOf db i.workflowStateId
  | none => none

def stateNameOf (db : Db) (sid : String) : Option String :=
  (db.workflowStates.find? (fun s => s.id == sid)).map (fun s => s.name)

/-- `aggregate _max number` over the team's issues, `|| 0`. -/
def maxTeamNumber (db : Db) (teamId : String) : Nat :=
  (db.issues.filter (fun i => i.teamId == teamId)).foldl (fun acc i => max acc i.number) 0

def issueAssigneesOf (db : Db) (issueId : String) : List IssueAssignee :=
  db.issueAssignees.filter (fun ia => ia.issueId == issueId)

/-! ### updateIssue -/

/-- The patch argument of `updateIssue`.  `none` on an outer `Option` means
the field is absent/`undefined`; `some none` on a doubled field means it is
present with value `null`. -/
structure UpdateIssueData where
  title : Option String := none
  description : Option String := none
  projectId : Option (Option String) := none
  workflowStateId : Option String := none
  assigneeIds : Option (List String) := none
  assigneeId : Option (Option String) := none
  assignee : Option (Option String) := none
  priority : Option String := none
  estimate : Option Nat := none
  labelIds : Option (List String) := none
  dueDate : Option (Option Nat) := none
  difficulty : Option String := none
  parentId : Option (Option String) := none
  reviewerId : Option (Option String) := none
  reviewer : Option (Option String) := none
  number : Option Nat := none
deriving DecidableEq

inductive UpdateError
  | issueNotFound
  | lockViolation
  | labelsNeedProject
  | labelsWrongProject
  | parentNotFound
  | ownParent
  | circularAncestor
  | circularDescendant
  | cannotMoveToDone
  | reviewerIsAssignee
  | reviewerNotMember
  | reviewerRequired
  | updateTargetNotFound
  | fuelExhausted
deriving DecidableEq

/-- Result of `updateIssue`.  Because the source runs outside a transaction,
an error carries the store as left behind by the writes already performed. -/
inductive UpdResult
  | ok (db : Db) (issue : Issue)
  | err (e : UpdateError) (db : Db)
deriving DecidableEq

def UpdResult.issue? : UpdResult → Option Issue
  | .ok _ i => some i
  | .err _ _ => none

def UpdResult.db : UpdResult → Db
  | .ok db _ => db
  | .err _ db => db

def UpdResult.error? : UpdResult → Option UpdateError
  | .ok _ _ => none
  | .err e _ => some e

/-- The review lock: fields other than `workflowStateId`, `reviewerId` and
`reviewer` that are present (not `undefined`) in the patch. -/
def attemptedDisallowed (d : UpdateIssueData) : Bool :=
  d.title.isSome || d.description.isSome || d.projectId.isSome ||
  d.assigneeIds.isSome || d.assigneeId.isSome || d.assignee.isSome ||
  d.priority.isSome || d.estimate.isSome || d.labelIds.isSome ||
  d.dueDate.isSome || d.difficulty.isSome || d.parentId.isSome ||
  d.number.isSome

/-- Renumbering on project change: when the patch carries a `projectId`
different from the stored one, allocate the team's next number into the
patch. -/
def renumberData (db : Db) (teamId : String) (cur : Issue) (d : UpdateIssueData) :
    UpdateIssueData :=
  match d.projectId with
  | some p =>
    if !(p == cur.projectId) then { d with number := some (maxTeamNumber db teamId + 1) }
    else d
  | none => d

/-- Old values captured for activity logging. -/
structure OldValues where
  title : String
  description : Option String
  workflowStateId : String
  workflowStateName : Option String
  workflowStateType : Option StateType
  priority : String
  dueDate : Option String
  difficulty : Option String
  parentId : Option String
  assignees : String
deriving DecidableEq

def mkOldValues (db : Db) (cur : Issue) : OldValues :=
  let ws := db.workflowStates.find? (fun s => s.id == cur.workflowStateId)
  { title := cur.title
    description := cur.description
    workflowStateId := cur.workflowStateId
    workflowStateName := ws.map (fun s => s.name)
    workflowStateType := ws.map (fun s => s.type)
    priority := cur.priority
    dueDate := cur.dueDate.map dayStr
    difficulty := cur.difficulty
    parentId := cur.parentId
    assignees := String.intercalate ", " ((issueAssigneesOf db cur.id).map (fun ia => ia.userName)) }

/-- `deleteMany` of the issue's label links followed by `createMany` of the
new ones. -/
def labelsWrite (db : Db) (issueId : String) (lids : List String) : Db :=
  let cleared := db.issueLabels.filter (fun il => !(il.issueId == issueId))
  { db with issueLabels :=
      cleared ++ (if lids.length > 0 then lids.map (fun lid => IssueLabel.mk issueId lid) else []) }

/-- Label handling of `updateIssue`: validate against the target project,
then replace the issue's label links.  Validation precedes the writes, so
an error leaves the store untouched. -/
def labelsPhase (db : Db) (cur : Issue) (d : UpdateIssueData) (issueId : String) :
    Except UpdateError Db :=
  match d.labelIds with
  | none => .ok db
  | some lids =>
    let targetProjectId : Option String :=
      match d.projectId with
      | some p => p
      | none => cur.projectId
    if lids.length > 0 then
      match targetProjectId with
      | none => .error .labelsNeedProject
      | some tp =>
        if (db.labels.filter (fun l => lids.contains l.id && l.projectId == tp)).length ==
            lids.length then .ok (labelsWrite db issueId lids)
        else .error .labelsWrongProject
    else .ok (labelsWrite db issueId lids)

/-- Assignee handling of `updateIssue`: replace the assignee links and keep
the legacy single-assignee fields of the patch in sync with the first
resolved team member. -/
def assigneesPhase (db : Db) (teamId issueId : String) (d : UpdateIssueData) :
    Db × UpdateIssueData :=
  match d.assigneeIds with
  | none => (db, d)
  | some aids =>
    let cleared := db.issueAssignees.filter (fun ia => !(ia.issueId == issueId))
    if aids.length > 0 then
      let members := db.teamMembers.filter (fun m => m.teamId == teamId && aids.contains m.userId)
      let db1 := { db with issueAssignees :=
        cleared ++ members.map (fun m => IssueAssignee.mk issueId m.userId m.userName) }
      match members.head? with
      | some m => (db1, { d with assigneeId := some (some m.userId), assignee := some (some m.userName) })
      | none => (db1, { d with assigneeId := some none, assignee := some none })
    else
      ({ db with issueAssignees := cleared }, { d with assigneeId := some none, assignee := some none })

/-- The fields `updateIssue` writes to the issue row (`updateData`). -/
structure UpdatePatch where
  parentId : Option (Option String) := none
  title : Option String := none
  description : Option String := none
  projectId : Option (Option String) := none
  workflowStateId : Option String := none
  reviewedAt : Option (Option Nat) := none
  reviewerId : Option (Option String) := none
  reviewer : Option (Option String) := none
  completedAt : Option (Option Nat) := none
  assigneeId : Option (Option String) := none
  assignee : Option (Option String) := none
  priority : Option String := none
  estimate : Option Nat := none
  dueDate : Option (Option Nat) := none
  difficulty : Option String := none
  number : Option Nat := none
deriving DecidableEq

/-- The `while (currentParentId)` walk up the proposed parent's ancestor
chain, carrying the `visited` set seeded with the issue's own id.  The
source has no fuel; the fuel passed by `parentPhase` exceeds the number of
steps the walk can make, so exhaustion is unreachable there. -/
def ancestorWalk (db : Db) (teamId : String) :
    Nat → List String → Option String → Except UpdateError Unit
  | _, _, none => .ok ()
  | 0, _, some _ => .error .fuelExhausted
  | fuel + 1, visited, some cur =>
    if visited.contains cur then .error .circularAncestor
    else
      match db.issues.find? (fun i => i.id == cur && i.teamId == teamId) with
      | some anc => ancestorWalk db teamId fuel (cur :: visited) anc.parentId
      | none => ancestorWalk db teamId fuel (cur :: visited) none

mutual

/-- The recursive `checkDescendants` of the source: does `target` occur in
the descendant subtree rooted at `id`?  The source recurses without bound
(a cyclic store would overflow the stack, surfacing as a thrown error);
running out of fuel is likewise modelled as an error. -/
def checkDescendants (db : Db) (teamId target : String) :
    Nat → String → Except UpdateError Bool
  | 0, _ => .error .fuelExhausted
  | fuel + 1, id =>
    checkDescChildren db teamId target fuel
      (db.issues.filter (fun i => i.parentId == some id && i.teamId == teamId))

def checkDescChildren (db : Db) (teamId target : String) :
    Nat → List Issue → Except UpdateError Bool
  | _, [] => .ok false
  | fuel, c :: cs =>
    if c.id == target then .ok true
    else
      match checkDescendants db teamId target fuel c.id with
      | .error e => .error e
      | .ok true => .ok true
      | .ok false => checkDescChildren db teamId target fuel cs

end

/-- The `parentId` section of `updateIssue`: existence, self-parent,
ancestor-chain and descendant-subtree checks. -/
def parentPhase (db : Db) (teamId issueId : String) (d : UpdateIssueData)
    (patch : UpdatePatch) : Except UpdateError UpdatePatch :=
  match d.parentId with
  | none => .ok patch
  | some pv =>
    match jsTruthyStr pv with
    | none => .ok { patch with parentId := some none }
    | some p =>
      match db.issues.find? (fun i => i.id == p && i.teamId == teamId) with
      | none => .error .parentNotFound
      | some parentIssue =>
        if parentIssue.id == issueId then .error .ownParent
        else
          match ancestorWalk db teamId (db.issues.length + 2) [issueId] parentIssue.parentId with
          | .error e => .error e
          | .ok _ =>
            match checkDescendants db teamId p (db.issues.length + 2) issueId with
            | .error e => .error e
            | .ok true => .error .circularDescendant
            | .ok false => .ok { patch with parentId := some (some p) }

def simpleFieldsPatch (d : UpdateIssueData) (patch : UpdatePatch) : UpdatePatch :=
  let patch := match d.title with
    | some t => { patch with title := some t }
    | none => patch
  let patch := match d.description with
    | some s => { patch with description := some s }
    | none => patch
  match d.projectId with
  | some p => { patch with projectId := some p }
  | none => patch

/-- Entering the review stage: `reviewedAt` is stamped and a reviewer is
mandatory, must not be "one of the assignees", and must be a team member.
The section re-fetches the issue selecting only `workflowStateId`
(shadowing the outer fetch), so the assignee list consulted by the
self-review guard is absent at runtime and defaults to the empty list —
the `reviewerIsAssignee` branch is unreachable. -/
def reviewEntryPatch (db : Db) (teamId : String) (d : UpdateIssueData)
    (patch : UpdatePatch) (now : Nat) : Except UpdateError UpdatePatch :=
  let patch := { patch with reviewedAt := some (some now) }
  match jsTruthyStr (d.reviewerId.bind id) with
  | some r =>
    let assigneeIdsGuard : List String := []
    if assigneeIdsGuard.contains r then .error .reviewerIsAssignee
    else
      match db.teamMembers.find? (fun m => m.teamId == teamId && m.userId == r) with
      | none => .error .reviewerNotMember
      | some m =>
        .ok { patch with
                reviewerId := some (some m.userId),
                reviewer := some (some (jsStrOr (d.reviewer.bind id) m.userName)) }
  | none => .error .reviewerRequired

/-- The `workflowStateId` section of `updateIssue`: the hard rule guarding
`completed`, the reviewer requirement on entering `review`, clearing the
reviewer on leaving `review`, and setting/clearing `completedAt`. -/
def workflowPhase (db : Db) (teamId issueId : String) (d : UpdateIssueData)
    (patch : UpdatePatch) (now : Nat) : Except UpdateError UpdatePatch :=
  match d.workflowStateId with
  | none => .ok patch
  | some newSid =>
    let currentType := currentTypeOf db issueId
    let newType := stateTypeOf db newSid
    if newType == some .completed && !(currentType == some .review) then
      .error .cannotMoveToDone
    else
      match
        (if newType == some .review && !(currentType == some .review) then
          reviewEntryPatch db teamId d patch now
        else .ok patch) with
      | .error e => .error e
      | .ok patch =>
        let patch :=
          if !(newType == some .review) && currentType == some .review then
            { patch with reviewerId := some none, reviewer := some none }
          else patch
        let patch :=
          if newType == some .completed then { patch with completedAt := some (some now) }
          else { patch with completedAt := some none }
        .ok { patch with workflowStateId := some newSid }

def restFieldsPatch (d : UpdateIssueData) (patch : UpdatePatch) : UpdatePatch :=
  let patch := match d.assigneeId with
    | some v => { patch with assigneeId := some v }
    | none => patch
  let patch := match d.assignee with
    | some v => { patch with assignee := some v }
    | none => patch
  let patch := match d.priority with
    | some v => { patch with priority := some v }
    | none => patch
  let patch := match d.estimate with
    | some v => { patch with estimate := some v }
    | none => patch
  let patch := match d.dueDate with
    | some v => { patch with dueDate := some v }
    | none => patch
  let patch := match d.difficulty with
    | some v => { patch with difficulty := some v }
    | none => patch
  match d.number with
  | some n => { patch with number := some n }
  | none => patch

def buildPatch (db : Db) (teamId issueId : String) (d : UpdateIssueData) (now : Nat) :
    Except UpdateError UpdatePatch :=
  match parentPhase db teamId issueId d {} with
  | .error e => .error e
  | .ok patch =>
    let patch := simpleFieldsPatch d patch
    match workflowPhase db teamId issueId d patch now with
    | .error e => .error e
    | .ok patch => .ok (restFieldsPatch d patch)

def applyPatch (i : Issue) (p : UpdatePatch) (now : Nat) : Issue :=
  { i with
    parentId := match p.parentId with
      | some v => v
      | none => i.parentId
    title := p.title.getD i.title
    description := p.description.orElse (fun _ => i.description)
    projectId := match p.projectId with
      | some v => v
      | none => i.projectId
    workflowStateId := p.workflowStateId.getD i.workflowStateId
    reviewedAt := match p.reviewedAt with
      | some v => v
      | none => i.reviewedAt
    reviewerId := match p.reviewerId with
      | some v => v
      | none => i.reviewerId
    reviewer := match p.reviewer with
      | some v => v
      | none => i.reviewer
    completedAt := match p.completedAt with
      | some v => v
      | none => i.completedAt
    assigneeId := match p.assigneeId with
      | some v => v
      | none => i.assigneeId
    assignee := match p.assignee with
      | some v => v
      | none => i.assignee
    priority := p.priority.getD i.priority
    estimate := p.estimate.orElse (fun _ => i.estimate)
    dueDate := match p.dueDate with
      | some v => v
      | none => i.dueDate
    difficulty := p.difficulty.orElse (fun _ => i.difficulty)
    number := p.number.getD i.number
    updatedAt := now }

/-- `db.issue.update({ where: { id, teamId }, data })`: fails (P2025) when
no row matches both the id and the team. -/
def applyUpdate (db : Db) (teamId issueId : String) (p : UpdatePatch) (now : Nat) :
    Option (Db × Issue) :=
  match db.issues.find? (fun i => i.id == issueId && i.teamId == teamId) with
  | none => none
  | some i =>
    let upd := applyPatch i p now
    some ({ db with issues :=
              db.issues.map (fun j => if j.id == issueId && j.teamId == teamId then upd else j) },
          upd)

def statusLog (db : Db) (issueId userId userName : String) (d : UpdateIssueData)
    (old : OldValues) (updated : Issue) : List IssueActivity :=
  match jsTruthyStr d.workflowStateId with
  | none => []
  | some sid =>
    if sid == old.workflowStateId then []
    else
      let newStateName := jsStrOr (stateNameOf db updated.workflowStateId) sid
      let newStateType := stateTypeOf db updated.workflowStateId
      let action :=
        if newStateType == some .review && !(old.workflowStateType == some .review) then
          "sent_to_review"
        else if newStateType == some .completed && old.workflowStateType == some .review then
          "approved"
        else "status_changed"
      let baseMeta : ActivityMetadata :=
        { oldStatusId := some old.workflowStateId, newStatusId := some sid }
      let meta :=
        if action == "sent_to_review" then
          match jsTruthyStr (d.reviewerId.bind id) with
          | some r =>
            { baseMeta with reviewerId := some r,
                            reviewerName := jsOrOpt (d.reviewer.bind id) updated.reviewer }
          | none => baseMeta
        else baseMeta
      let newValue :=
        match (if action == "sent_to_review" then jsTruthyStr (d.reviewer.bind id) else none) with
        | some rv => "Review (Reviewer: " ++ rv ++ ")"
        | none => newStateName
      [{ issueId := issueId, userId := userId, userName := userName,
         action := action, field := some "workflowStateId",
         oldValue := some (jsStrOr old.workflowStateName old.workflowStateId),
         newValue := some newValue, metadata := some meta }]

def fieldLogs (issueId userId userName : String) (d : UpdateIssueData)
    (old : OldValues) : List IssueActivity :=
  let titleLog :=
    match jsTruthyStr d.title with
    | some t =>
      if t == old.title then []
      else [{ issueId := issueId, userId := userId, userName := userName,
              action := "updated", field := some "title",
              oldValue := some old.title, newValue := some t : IssueActivity }]
    | none => []
  let descriptionLog :=
    match d.description with
    | some s =>
      if old.description == some s then []
      else [{ issueId := issueId, userId := userId, userName := userName,
              action := "updated", field := some "description",
              oldValue := jsTruthyStr old.description,
              newValue := jsTruthyStr (some s) : IssueActivity }]
    | none => []
  let priorityLog :=
    match jsTruthyStr d.priority with
    | some v =>
      if v == old.priority then []
      else [{ issueId := issueId, userId := userId, userName := userName,
              action := "updated", field := some "priority",
              oldValue := some old.priority, newValue := some v : IssueActivity }]
    | none => []
  let dueDateLog :=
    match d.dueDate with
    | some v =>
      let newDueDate : Option String := v.map dayStr
      if newDueDate == old.dueDate then []
      else [{ issueId := issueId, userId := userId, userName := userName,
              action := "updated", field := some "dueDate",
              oldValue := old.dueDate, newValue := newDueDate : IssueActivity }]
    | none => []
  let difficultyLog :=
    match d.difficulty with
    | some s =>
      if old.difficulty == some s then []
      else [{ issueId := issueId, userId := userId, userName := userName,
              action := "updated", field := some "difficulty",
              oldValue := jsTruthyStr old.difficulty,
              newValue := jsTruthyStr (some s) : IssueActivity }]
    | none => []
  titleLog ++ descriptionLog ++ priorityLog ++ dueDateLog ++ difficultyLog

def assigneesLog (db : Db) (issueId userId userName : String) (d : UpdateIssueData)
    (old : OldValues) : List IssueActivity :=
  match d.assigneeIds with
  | none => []
  | some _ =>
    let newAssignees :=
      String.intercalate ", " ((issueAssigneesOf db issueId).map (fun ia => ia.userName))
    if newAssignees == old.assignees then []
    else
      let isReassignment := !(old.assignees == "")
      [{ issueId := issueId, userId := userId, userName := userName,
         action := if isReassignment then "reassigned" else "assigned",
         field := some "assignees",
         oldValue := jsTruthyStr (some old.assignees),
         newValue := jsTruthyStr (some newAssignees) }]

/-- The activity block of `updateIssue`, run only when both a user id and a
user name were supplied. -/
def logActivities (db : Db) (issueId : String) (d : UpdateIssueData) (old : OldValues)
    (updated : Issue) (userId? userName? : Option String) : Db :=
  match jsTruthyStr userId?, jsTruthyStr userName? with
  | some userId, some userName =>
    let acts :=
      statusLog db issueId userId userName d old updated ++
      fieldLogs issueId userId userName d old ++
      assigneesLog db issueId userId userName d old
    { db with activities := db.activities ++ acts }
  | _, _ => db

/-- `updateIssue` from `lib/api/issues.ts`. -/
def updateIssue (db : Db) (teamId issueId : String) (data0 : UpdateIssueData)
    (userId? userName? : Option String) (now : Nat) : UpdResult :=
  match db.issues.find? (fun i => i.id == issueId) with
  | none => .err .issueNotFound db
  | some cur =>
    if stateTypeOf db cur.workflowStateId == some .review && attemptedDisallowed data0 then
      .err .lockViolation db
    else
      let old := mkOldValues db cur
      let data1 := renumberData db teamId cur data0
      match labelsPhase db cur data1 issueId with
      | .error e => .err e db
      | .ok db1 =>
        let (db2, data2) := assigneesPhase db1 teamId issueId data1
        match buildPatch db2 teamId issueId data2 now with
        | .error e => .err e db2
        | .ok patch =>
          match applyUpdate db2 teamId issueId patch now with
          | none => .err .updateTargetNotFound db2
          | some (db3, updated) =>
            .ok (logActivities db3 issueId data2 old updated userId? userName?) updated

/-! ### createIssue -/

structure CreateIssueData where
  title : String
  description : Option String := none
  workflowStateId : String
  labelIds : Option (List String) := none
  projectId : Option String := none
  assigneeIds : Option (List String) := none
  assigneeId : Option String := none
  assignee : Option String := none
  priority : Option String := none
  estimate : Option Nat := none
  dueDate : Option Nat := none
  difficulty : Option String := none
  parentId : Option String := none
deriving DecidableEq

inductive CreateResult
  | ok (db : Db) (issue : Issue)
  | err (e : UpdateError) (db : Db)
deriving DecidableEq

def CreateResult.issue? : CreateResult → Option Issue
  | .ok _ i => some i
  | .err _ _ => none

def CreateResult.db : CreateResult → Db
  | .ok db _ => db
  | .err _ db => db

def CreateResult.isOk : CreateResult → Bool
  | .ok _ _ => true
  | .err _ _ => false

/-- `new Set(...)` spread back into an array: deduplicate keeping first
occurrences in order. -/
def dedupKeepFirst (l : List String) : List String :=
  l.foldl (fun acc x => if acc.contains x then acc else acc ++ [x]) []

/-- `createIssue` from `lib/api/issues.ts`.  `newId` stands for the id the
store generates for the inserted row; `now` for the clock. -/
def createIssue (db : Db) (teamId : String) (data : CreateIssueData)
    (creatorId creatorName : String) (newId : String) (now : Nat) : CreateResult :=
  match
    ((match jsTruthyStr data.parentId with
     | some p =>
       match db.issues.find? (fun i => i.id == p && i.teamId == teamId) with
       | none => Except.error UpdateError.parentNotFound
       | some parentIssue =>
         Except.ok (some parentIssue,
           (db.issueLabels.filter (fun il => il.issueId == parentIssue.id)).map (fun il => il.labelId))
     | none => Except.ok (none, [])) : Except UpdateError (Option Issue × List String)) with
  | .error e => .err e db
  | .ok (parentIssue, inheritedLabelIds) =>
    let effectiveProjectId := jsOrOpt data.projectId (parentIssue.bind (fun i => i.projectId))
    let project : Option Project :=
      match effectiveProjectId with
      | some pid => db.projects.find? (fun pr => pr.id == pid && pr.teamId == teamId)
      | none => none
    let finalLabelIds := dedupKeepFirst (inheritedLabelIds ++ data.labelIds.getD [])
    let labelCheck : Except UpdateError Unit :=
      if finalLabelIds.length > 0 then
        match effectiveProjectId with
        | some ep =>
          if (db.labels.filter (fun l => finalLabelIds.contains l.id && l.projectId == ep)).length ==
              finalLabelIds.length then .ok ()
          else .error .labelsWrongProject
        | none => .error .labelsNeedProject
      else .ok ()
    match labelCheck with
    | .error e => .err e db
    | .ok _ =>
      let assigneeRecords : List (String × String) :=
        match data.assigneeIds with
        | some aids =>
          if aids.length > 0 then
            (db.teamMembers.filter (fun m => m.teamId == teamId && aids.contains m.userId)).map
              (fun m => (m.userId, m.userName))
          else []
        | none => []
      let nextNumber := maxTeamNumber db teamId + 1
      let issue : Issue :=
        { id := newId
          teamId := teamId
          number := nextNumber
          title := data.title
          description := data.description
          workflowStateId := data.workflowStateId
          priority := jsStrOr data.priority "none"
          dueDate := data.dueDate
          difficulty := data.difficulty
          estimate := data.estimate
          parentId := jsTruthyStr data.parentId
          assigneeId := jsOrOpt (data.assigneeIds.bind (fun l => l.head?)) data.assigneeId
          assignee := jsOrOpt (assigneeRecords.head?.map (fun r => r.2)) data.assignee
          reviewedAt := none
          reviewerId := none
          reviewer := none
          completedAt := none
          projectId := match project, effectiveProjectId with
            | some _, some ep => some ep
            | _, _ => none
          creatorId := creatorId
          creator := creatorName
          createdAt := now
          updatedAt := now }
      let db1 :=
        { db with
          issues := db.issues ++ [issue]
          issueLabels := db.issueLabels ++
            (if finalLabelIds.length > 0 then
              finalLabelIds.map (fun lid => IssueLabel.mk newId lid)
            else [])
          issueAssignees := db.issueAssignees ++
            (if assigneeRecords.length > 0 then
              assigneeRecords.map (fun r => IssueAssignee.mk newId r.1 r.2)
            else [])
          activities := db.activities ++
            [{ issueId := newId, userId := creatorId, userName := creatorName,
               action := "created", metadata := some { title := some data.title } }] }
      .ok db1 issue

/-! ### The review-decision endpoint (POST .../issues/[issueId]/review) -/

structure ReviewBody where
  action : Option String := none
  targetStateId : Option String := none
  reviewerId : Option String := none
  reason : Option String := none
deriving DecidableEq

inductive ReviewError
  | notTeamMember
  | issueNotFound
  | notInReview
  | notAuthorized
  | doneStateNotFound
  | reasonRequired
  | todoStateNotFound
  | reviewerIdRequired
  | reviewerNotFoundInTeam
  | invalidAction
  | updateFailed (e : UpdateError)
deriving DecidableEq

inductive ReviewResult
  | ok (db : Db) (issue : Issue)
  | err (e : ReviewError) (db : Db)
deriving DecidableEq

/-- The `switch (action)` of the endpoint, resolving the new workflow state
and/or the new reviewer.  `send_back` demands a reason of at least 10
characters after trimming before any state is touched. -/
def resolveReviewAction (db : Db) (teamId : String) (workflowStates : List WorkflowState)
    (body : ReviewBody) : Except ReviewError (Option String × Option String) :=
  if body.action == some "approve" then
    match workflowStates.find? (fun s => s.type == .completed) with
    | none => .error .doneStateNotFound
    | some doneState => .ok (some doneState.id, none)
  else if body.action == some "send_back" then
    match body.reason with
    | none => .error .reasonRequired
    | some r =>
      if (jsTrim r).length < 10 then .error .reasonRequired
      else
        match jsTruthyStr body.targetStateId with
        | some t => .ok (some t, none)
        | none =>
          match workflowStates.find? (fun s => s.type == .unstarted) with
          | none => .error .todoStateNotFound
          | some todoState => .ok (some todoState.id, none)
  else if body.action == some "reassign" then
    match jsTruthyStr body.reviewerId with
    | none => .error .reviewerIdRequired
    | some rid =>
      match db.teamMembers.find? (fun m => m.teamId == teamId && m.userId == rid) with
      | none => .error .reviewerNotFoundInTeam
      | some reviewer => .ok (none, some reviewer.userId)
  else .error .invalidAction

/-- The review-decision `POST` handler (the variant that admits the
assigned reviewer and logs review activities). -/
def reviewPOST (db : Db) (teamId issueId userId userName : String) (body : ReviewBody)
    (now : Nat) : ReviewResult :=
  match db.teamMembers.find? (fun m => m.teamId == teamId && m.userId == userId) with
  | none => .err .notTeamMember db
  | some teamMember =>
    match db.issues.find? (fun i => i.id == issueId) with
    | none => .err .issueNotFound db
    | some issue =>
      if !(stateTypeOf db issue.workflowStateId == some .review) then .err .notInReview db
      else
        let isOwnerOrAdmin := teamMember.role == "owner" || teamMember.role == "admin"
        let isAssignedReviewer := issue.reviewerId == some userId
        if !isOwnerOrAdmin && !isAssignedReviewer then .err .notAuthorized db
        else
          let workflowStates := db.workflowStates.filter (fun s => s.teamId == teamId)
          match resolveReviewAction db teamId workflowStates body with
          | .error e => .err e db
          | .ok (newSid?, newReviewerId?) =>
            let updateData : UpdateIssueData :=
              match newSid? with
              | some sid => { workflowStateId := some sid }
              | none => {}
            let newReviewerName : Option String :=
              match newReviewerId? with
              | some rid =>
                jsTruthyStr ((db.teamMembers.find?
                  (fun m => m.teamId == teamId && m.userId == rid)).map (fun m => m.userName))
              | none => none
            let updateData :=
              match newReviewerId? with
              | some rid =>
                { updateData with reviewerId := some (some rid), reviewer := some newReviewerName }
              | none => updateData
            match updateIssue db teamId issueId updateData (some userId) (some userName) now with
            | .err e db1 => .err (.updateFailed e) db1
            | .ok db1 updatedIssue =>
              let db2 :=
                if body.action == some "approve" then
                  { db1 with activities := db1.activities ++
                      [{ issueId := issueId, userId := userId, userName := userName,
                         action := "approved",
                         metadata := some { approvedBy := some userName } }] }
                else if body.action == some "send_back" then
                  let targetState := workflowStates.find? (fun s => some s.id == newSid?)
                  { db1 with activities := db1.activities ++
                      [{ issueId := issueId, userId := userId, userName := userName,
                         action := "sent_back",
                         newValue := some (jsStrOr (targetState.map (fun s => s.name)) "previous state"),
                         metadata := match jsTruthyStr body.reason with
                           | some r => some { reason := some r }
                           | none => none }] }
                else if body.action == some "reassign" then
                  match newReviewerName with
                  | some rn =>
                    { db1 with activities := db1.activities ++
                        [{ issueId := issueId, userId := userId, userName := userName,
                           action := "reassigned", field := some "reviewer",
                           newValue := some rn,
                           metadata := some { newReviewerId := newReviewerId? } }] }
                  | none => db1
                else db1
              .ok db2 updatedIssue

/-! ### The closure-analytics aggregator (GET .../aep-summary) -/

structure AepUserSummary where
  userName : String
  userId : String
  sClosed : Nat
  mClosed : Nat
  lClosed : Nat
  totalClosed : Nat
  onTimeClosed : Nat
  delayedClosed : Nat
deriving DecidableEq

/-- The per-issue counter updates of `processAssignee`: difficulty bucket,
total, and the timeliness split comparing the delivered-by timestamp
(`reviewedAt || completedAt || updatedAt`) with the due date, both
truncated to the date. -/
def bumpSummary (s : AepUserSummary) (i : Issue) : AepUserSummary :=
  let s :=
    if i.difficulty == some "S" then { s with sClosed := s.sClosed + 1 }
    else if i.difficulty == some "M" then { s with mClosed := s.mClosed + 1 }
    else if i.difficulty == some "L" then { s with lClosed := s.lClosed + 1 }
    else s
  let s := { s with totalClosed := s.totalClosed + 1 }
  match i.dueDate with
  | some due =>
    let comparisonDate := ((i.reviewedAt).orElse (fun _ => i.completedAt)).getD i.updatedAt
    if truncDay comparisonDate ≤ truncDay due then
      { s with onTimeClosed := s.onTimeClosed + 1 }
    else { s with delayedClosed := s.delayedClosed + 1 }
  | none => s

def freshSummary (userName userId : String) : AepUserSummary :=
  { userName := userName, userId := userId, sClosed := 0, mClosed := 0, lClosed := 0,
    totalClosed := 0, onTimeClosed := 0, delayedClosed := 0 }

/-- `processAssignee`: get-or-insert the user's row (insertion order of the
JS `Map`), then bump its counters for the issue. -/
def processAssignee (acc : List AepUserSummary) (userId userName : String) (i : Issue) :
    List AepUserSummary :=
  if acc.any (fun s => s.userId == userId) then
    acc.map (fun s => if s.userId == userId then bumpSummary s i else s)
  else acc ++ [bumpSummary (freshSummary userName userId) i]

/-- The per-issue loop body: every member of the (non-empty) assignee list
is processed, else the legacy single assignee. -/
def processIssue (db : Db) (teamId : String) (acc : List AepUserSummary) (i : Issue) :
    List AepUserSummary :=
  let assignees := issueAssigneesOf db i.id
  if assignees.length > 0 then
    assignees.foldl (fun acc a => processAssignee acc a.userId a.userName i) acc
  else
    match i.assigneeId with
    | some aid =>
      let memberName := (db.teamMembers.find?
        (fun m => m.teamId == teamId && m.userId == aid)).map (fun m => m.userName)
      processAssignee acc aid (jsStrOr i.assignee (jsStrOr memberName "Unknown")) i
    | none => acc

/-- The `where` clause of the aggregator's issue query: team, completed
stage, the (tautological) reviewedAt disjunction, optional project filter,
and the assignee condition (a filter on the issues, not on which assignees
of a selected issue are counted). -/
def aepEligibleIssues (db : Db) (teamId : String) (projectId? filterUserId? : Option String) :
    List Issue :=
  let completedStateIds :=
    (db.workflowStates.filter (fun s => s.teamId == teamId && s.type == .completed)).map
      (fun s => s.id)
  db.issues.filter (fun i =>
    i.teamId == teamId &&
    completedStateIds.contains i.workflowStateId &&
    (i.reviewedAt.isSome || !i.reviewedAt.isSome) &&
    (match projectId? with
     | some p => i.projectId == some p
     | none => true) &&
    (i.reviewedAt.isSome || !i.reviewedAt.isSome) &&
    (match filterUserId? with
     | some u => i.assigneeId == some u ||
         db.issueAssignees.any (fun ia => ia.issueId == i.id && ia.userId == u)
     | none => i.assigneeId.isSome ||
         db.issueAssignees.any (fun ia => ia.issueId == i.id)))

/-- The stable descending sort on `totalClosed`
(`.sort((a, b) => b.totalClosed - a.totalClosed)`, stable per the ES
specification): an element is inserted before the first element it is not
smaller than, so ties keep their insertion order. -/
def insertByTotalDesc (x : AepUserSummary) : List AepUserSummary → List AepUserSummary
  | [] => [x]
  | y :: ys =>
    if y.totalClosed ≤ x.totalClosed then x :: y :: ys else y :: insertByTotalDesc x ys

def sortByTotalDesc (l : List AepUserSummary) : List AepUserSummary :=
  l.foldr insertByTotalDesc []

/-- The aggregation of the `aep-summary` GET handler. -/
def aepSummary (db : Db) (teamId : String) (projectId? filterUserId? : Option String) :
    List AepUserSummary :=
  let completedStateIds :=
    (db.workflowStates.filter (fun s => s.teamId == teamId && s.type == .completed)).map
      (fun s => s.id)
  if completedStateIds.isEmpty then []
  else
    sortByTotalDesc
      ((aepEligibleIssues db teamId projectId? filterUserId?).foldl (processIssue db teamId) [])

/-! ### Concrete fixtures used by witnesses and counterexamples -/

def fixStates : List WorkflowState :=
  [ { id := "bk", teamId := "T", name := "Backlog", type := .backlog },
    { id := "td", teamId := "T", name := "Todo", type := .unstarted },
    { id := "st", teamId := "T", name := "In Progress", type := .started },
    { id := "rv", teamId := "T", name := "Review", type := .review },
    { id := "dn", teamId := "T", name := "Done", type := .completed } ]

def fixMembers : List TeamMember :=
  [ { teamId := "T", userId := "U1", userName := "Alice", role := "owner" },
    { teamId := "T", userId := "U2", userName := "Bob", role := "admin" },
    { teamId := "T", userId := "U3", userName := "Carol", role := "developer" } ]

def fixIssue (id : String) (n : Nat) (sid : String) : Issue :=
  { id := id, teamId := "T", number := n, title := "t", description := none,
    workflowStateId := sid, priority := "none", dueDate := none, difficulty := none,
    estimate := none, parentId := none, assigneeId := none, assignee := none,
    reviewedAt := none, reviewerId := none, reviewer := none, completedAt := none,
    projectId := none, creatorId := "U1", creator := "Alice", createdAt := 0, updatedAt := 0 }

/-- One issue `I1` in the started stage, assigned to `U1`. -/
def fixDb : Db :=
  { issues := [fixIssue "I1" 1 "st"]
    workflowStates := fixStates
    teamMembers := fixMembers
    issueAssignees := [ { issueId := "I1", userId := "U1", userName := "Alice" } ]
    issueLabels := [], labels := [], projects := [], activities := [] }

/-- `I1` sits in the review stage with reviewer `U2`. -/
def fixDbReview : Db :=
  { fixDb with
    issues := [ { (fixIssue "I1" 1 "rv") with
                  reviewerId := some "U2"
                  reviewer := some "Bob"
                  reviewedAt := some 3 } ] }

/-- A closed issue with due date on day 100, `reviewedAt` on day 99,
`completedAt` on day 102 and difficulty `S`, assigned to `U1` and `U2`. -/
def fixDoneIssue : Issue :=
  { (fixIssue "I5" 5 "dn") with
    difficulty := some "S"
    dueDate := some (100 * msPerDay + 7200000)
    reviewedAt := some (99 * msPerDay + 3600000)
    completedAt := some (102 * msPerDay)
    updatedAt := 103 * msPerDay }

def fixDbAep : Db :=
  { fixDb with
    issues := [fixDoneIssue]
    issueAssignees := [ { issueId := "I5", userId := "U1", userName := "Alice" },
                        { issueId := "I5", userId := "U2", userName := "Bob" } ] }

/-- `I1` (number 1) belongs to project `P1`; the team's maximum issue
number is 7. -/
def fixDbProj : Db :=
  { fixDb with
    issues := [ { (fixIssue "I1" 1 "st") with projectId := some "P1" }, fixIssue "I2" 7 "st" ]
    projects := [ { id := "P1", teamId := "T" }, { id := "P2", teamId := "T" } ] }

/-- Issues `A` and `B` with `B.parentId = A`. -/
def fixDbPar : Db :=
  { fixDb with
    issues := [ fixIssue "A" 1 "st", { (fixIssue "B" 2 "st") with parentId := some "A" } ]
    issueAssignees := [] }

/-- Number of credit events issue `i` contributes to user `u` in one pass of
the aggregation loop: one per row of the assignee table matching `u`, or one
for the legacy `assigneeId` when the table has no rows for the issue. -/
def creditsOf (db : Db) (u : String) (i : Issue) : Nat :=
  if (issueAssigneesOf db i.id).length > 0 then
    ((issueAssigneesOf db i.id).filter (fun a => a.userId == u)).length
  else if i.assigneeId == some u then 1 else 0

/-- Read counter `f` off the first summary row for `u` (0 when absent). -/
def counterOf (f : AepUserSummary → Nat) (l : List AepUserSummary) (u : String) : Nat :=
  match l.find? (fun s => s.userId == u) with
  | some s => f s
  | none => 0

/-- `fixDoneIssue` with difficulty `M`: the walkthrough example (due date on
day 100, `reviewedAt` day 99, `completedAt` day 102). -/
def fixDoneIssueM : Issue := { fixDoneIssue with difficulty := some "M" }

/-! ### The parent-reference graph, for the structural-integrity claim -/

/-- The parent-reference map of the store: one `(id, parentId)` pair per
issue row. -/
def parentMap (db : Db) : List (String × Option String) :=
  db.issues.map (fun i => (i.id, i.parentId))

/-- First-match lookup in a parent map; a missing key reads as `none`, like
a missing row. -/
def plookup (l : List (String × Option String)) (x : String) : Option String :=
  match l.find? (fun e => e.1 == x) with
  | some e => e.2
  | none => none

/-- The ancestor chain from reference `s`, cut off after `fuel` elements. -/
def pchain (l : List (String × Option String)) : Nat → Option String → List String
  | _, none => []
  | 0, some _ => []
  | fuel + 1, some x => x :: pchain l fuel (plookup l x)

/-- Rewrite the value of every entry with key `x`. -/
def setParent (l : List (String × Option String)) (x : String) (v : Option String) :
    List (String × Option String) :=
  l.map (fun e => if e.1 == x then (e.1, v) else e)

/-- Acyclicity of a parent map: no id is reachable from its own parent
reference, at any chain length. -/
def AcyclicPM (l : List (String × Option String)) : Prop :=
  ∀ (y : String) (f : Nat), y ∉ pchain l f (plookup l y)

/-! ### Infrastructure lemmas about the phases of updateIssue -/

theorem stateTypeOf_congr {db db' : Db} (h : db'.workflowStates = db.workflowStates) :
    stateTypeOf db' = stateTypeOf db := by
  funext sid; unfold stateTypeOf; rw [h]

theorem currentTypeOf_congr {db db' : Db} (hw : db'.workflowStates = db.workflowStates)
    (hi : db'.issues = db.issues) : currentTypeOf db' = currentTypeOf db := by
  funext issueId; unfold currentTypeOf; rw [hi, stateTypeOf_congr hw]

theorem labelsWrite_tables (db : Db) (issueId : String) (lids : List String) :
    (labelsWrite db issueId lids).issues = db.issues ∧
    (labelsWrite db issueId lids).workflowStates = db.workflowStates ∧
    (labelsWrite db issueId lids).teamMembers = db.teamMembers ∧
    (labelsWrite db issueId lids).issueAssignees = db.issueAssignees ∧
    (labelsWrite db issueId lids).activities = db.activities ∧
    (labelsWrite db issueId lids).labels = db.labels ∧
    (labelsWrite db issueId lids).projects = db.projects := by
  unfold labelsWrite; exact ⟨rfl, rfl, rfl, rfl, rfl, rfl, rfl⟩

theorem labelsPhase_ok_tables {db db1 : Db} {cur : Issue} {d : UpdateIssueData} {iid : String}
    (h : labelsPhase db cur d iid = .ok db1) :
    db1.issues = db.issues ∧ db1.workflowStates = db.workflowStates ∧
    db1.teamMembers = db.teamMembers ∧ db1.issueAssignees = db.issueAssignees ∧
    db1.activities = db.activities ∧ db1.labels = db.labels ∧ db1.projects = db.projects := by
  simp only [labelsPhase] at h
  repeat' split at h
  all_goals (try cases h)
  all_goals simp_all [labelsWrite]

theorem labelsPhase_err {db : Db} {cur : Issue} {d : UpdateIssueData} {iid : String}
    {e : UpdateError} (h : labelsPhase db cur d iid = .error e) :
    e = .labelsNeedProject ∨ e = .labelsWrongProject := by
  simp only [labelsPhase] at h
  repeat' split at h
  all_goals simp_all

theorem assigneesPhase_tables (db : Db) (teamId issueId : String) (d : UpdateIssueData) :
    (assigneesPhase db teamId issueId d).1.issues = db.issues ∧
    (assigneesPhase db teamId issueId d).1.workflowStates = db.workflowStates ∧
    (assigneesPhase db teamId issueId d).1.teamMembers = db.teamMembers ∧
    (assigneesPhase db teamId issueId d).1.issueLabels = db.issueLabels ∧
    (assigneesPhase db teamId issueId d).1.activities = db.activities ∧
    (assigneesPhase db teamId issueId d).1.labels = db.labels ∧
    (assigneesPhase db teamId issueId d).1.projects = db.projects := by
  simp only [assigneesPhase]
  repeat' split
  all_goals simp

theorem assigneesPhase_fields (db : Db) (teamId issueId : String) (d : UpdateIssueData) :
    (assigneesPhase db teamId issueId d).2.title = d.title ∧
    (assigneesPhase db teamId issueId d).2.description = d.description ∧
    (assigneesPhase db teamId issueId d).2.projectId = d.projectId ∧
    (assigneesPhase db teamId issueId d).2.workflowStateId = d.workflowStateId ∧
    (assigneesPhase db teamId issueId d).2.priority = d.priority ∧
    (assigneesPhase db teamId issueId d).2.estimate = d.estimate ∧
    (assigneesPhase db teamId issueId d).2.labelIds = d.labelIds ∧
    (assigneesPhase db teamId issueId d).2.dueDate = d.dueDate ∧
    (assigneesPhase db teamId issueId d).2.difficulty = d.difficulty ∧
    (assigneesPhase db teamId issueId d).2.parentId = d.parentId ∧
    (assigneesPhase db teamId issueId d).2.reviewerId = d.reviewerId ∧
    (assigneesPhase db teamId issueId d).2.reviewer = d.reviewer ∧
    (assigneesPhase db teamId issueId d).2.number = d.number := by
  simp only [assigneesPhase]
  repeat' split
  all_goals simp

theorem reviewEntryPatch_err {db : Db} {teamId : String} {d : UpdateIssueData}
    {patch : UpdatePatch} {now : Nat} {e : UpdateError}
    (h : reviewEntryPatch db teamId d patch now = .error e) :
    e = .reviewerIsAssignee ∨ e = .reviewerNotMember ∨ e = .reviewerRequired := by
  simp only [reviewEntryPatch] at h
  repeat' split at h
  all_goals (try cases h)
  all_goals simp_all

theorem reviewEntryPatch_ok {db : Db} {teamId : String} {d : UpdateIssueData}
    {patch p' : UpdatePatch} {now : Nat}
    (h : reviewEntryPatch db teamId d patch now = .ok p') :
    p'.parentId = patch.parentId ∧ p'.title = patch.title ∧
    p'.description = patch.description ∧ p'.projectId = patch.projectId ∧
    p'.workflowStateId = patch.workflowStateId ∧ p'.completedAt = patch.completedAt ∧
    p'.assigneeId = patch.assigneeId ∧ p'.assignee = patch.assignee ∧
    p'.priority = patch.priority ∧ p'.estimate = patch.estimate ∧
    p'.dueDate = patch.dueDate ∧ p'.difficulty = patch.difficulty ∧
    p'.number = patch.number ∧ p'.reviewedAt = some (some now) := by
  simp only [reviewEntryPatch] at h
  repeat' split at h
  all_goals (try cases h)
  all_goals simp_all

theorem workflowPhase_none {db : Db} {teamId issueId : String} {d : UpdateIssueData}
    {patch : UpdatePatch} {now : Nat} (hs : d.workflowStateId = none) :
    workflowPhase db teamId issueId d patch now = .ok patch := by
  simp only [workflowPhase, hs]

theorem workflowPhase_err {db : Db} {teamId issueId : String} {d : UpdateIssueData}
    {patch : UpdatePatch} {now : Nat} {e : UpdateError}
    (h : workflowPhase db teamId issueId d patch now = .error e) :
    e = .cannotMoveToDone ∨ e = .reviewerIsAssignee ∨ e = .reviewerNotMember ∨
    e = .reviewerRequired := by
  simp only [workflowPhase] at h
  split at h
  · cases h
  · split at h
    · cases h; exact Or.inl rfl
    · split at h
      · rename_i heq
        cases h
        split at heq
        · rcases reviewEntryPatch_err heq with h1 | h1 | h1 <;> simp [h1]
        · cases heq
      · cases h

theorem workflowPhase_some_ok {db : Db} {teamId issueId : String} {d : UpdateIssueData}
    {patch p' : UpdatePatch} {now : Nat} {sid : String}
    (hs : d.workflowStateId = some sid)
    (h : workflowPhase db teamId issueId d patch now = .ok p') :
    p'.workflowStateId = some sid ∧
    p'.parentId = patch.parentId ∧ p'.title = patch.title ∧
    p'.description = patch.description ∧ p'.projectId = patch.projectId ∧
    p'.assigneeId = patch.assigneeId ∧ p'.assignee = patch.assignee ∧
    p'.priority = patch.priority ∧ p'.estimate = patch.estimate ∧
    p'.dueDate = patch.dueDate ∧ p'.difficulty = patch.difficulty ∧
    p'.number = patch.number ∧
    (stateTypeOf db sid = some .completed →
      currentTypeOf db issueId = some .review ∧ p'.completedAt = some (some now)) ∧
    (¬ stateTypeOf db sid = some .completed → p'.completedAt = some none) := by
  simp only [workflowPhase, hs] at h
  split at h
  · cases h
  · rename_i hGate
    split at h
    · cases h
    · rename_i pMid heq
      have hmid :
          pMid.parentId = patch.parentId ∧ pMid.title = patch.title ∧
          pMid.description = patch.description ∧ pMid.projectId = patch.projectId ∧
          pMid.workflowStateId = patch.workflowStateId ∧
          pMid.assigneeId = patch.assigneeId ∧ pMid.assignee = patch.assignee ∧
          pMid.priority = patch.priority ∧ pMid.estimate = patch.estimate ∧
          pMid.dueDate = patch.dueDate ∧ pMid.difficulty = patch.difficulty ∧
          pMid.number = patch.number := by
        split at heq
        · have := reviewEntryPatch_ok heq
          tauto
        · cases heq; tauto
      cases h
      repeat' split
      all_goals simp_all

theorem ancestorWalk_err {db : Db} {teamId : String} :
    ∀ (fuel : Nat) (visited : List String) (s : Option String) (e : UpdateError),
      ancestorWalk db teamId fuel visited s = .error e →
      e = .circularAncestor ∨ e = .fuelExhausted
  | fuel, visited, none, e, h => by
    simp [ancestorWalk] at h
  | 0, visited, some cur, e, h => by
    simp only [ancestorWalk] at h
    cases h
    exact Or.inr rfl
  | fuel + 1, visited, some cur, e, h => by
    simp only [ancestorWalk] at h
    split at h
    · cases h; exact Or.inl rfl
    · split at h
      · exact ancestorWalk_err fuel _ _ _ h
      · exact absurd h (by simp)

theorem checkDescChildren_err_of {db : Db} {teamId target : String} {fuel : Nat}
    (hP : ∀ (id : String) (e : UpdateError),
      checkDescendants db teamId target fuel id = .error e → e = .fuelExhausted) :
    ∀ (l : List Issue) (e : UpdateError),
      checkDescChildren db teamId target fuel l = .error e → e = .fuelExhausted := by
  intro l
  induction l with
  | nil =>
    intro e h
    simp only [checkDescChildren] at h
    exact absurd h (by simp)
  | cons c cs ih =>
    intro e h
    simp only [checkDescChildren] at h
    split at h
    · exact absurd h (by simp)
    · split at h
      · cases h; exact hP _ _ ‹_›
      · exact absurd h (by simp)
      · exact ih _ h

theorem checkDescendants_err (db : Db) (teamId target : String) :
    ∀ (fuel : Nat) (id : String) (e : UpdateError),
      checkDescendants db teamId target fuel id = .error e → e = .fuelExhausted := by
  intro fuel
  induction fuel with
  | zero =>
    intro id e h
    simp only [checkDescendants] at h
    cases h; rfl
  | succ n ih =>
    intro id e h
    simp only [checkDescendants] at h
    exact checkDescChildren_err_of ih _ _ h

theorem parentPhase_err {db : Db} {teamId issueId : String} {d : UpdateIssueData}
    {patch : UpdatePatch} {e : UpdateError}
    (h : parentPhase db teamId issueId d patch = .error e) :
    e = .parentNotFound ∨ e = .ownParent ∨ e = .circularAncestor ∨
    e = .circularDescendant ∨ e = .fuelExhausted := by
  simp only [parentPhase] at h
  split at h
  · exact absurd h (by simp)
  · split at h
    · exact absurd h (by simp)
    · split at h
      · cases h; exact Or.inl rfl
      · split at h
        · cases h; exact Or.inr (Or.inl rfl)
        · split at h
          · cases h
            rcases ancestorWalk_err _ _ _ _ ‹_› with h1 | h1
            · exact Or.inr (Or.inr (Or.inl h1))
            · exact Or.inr (Or.inr (Or.inr (Or.inr h1)))
          · split at h
            · cases h
              exact Or.inr (Or.inr (Or.inr (Or.inr (checkDescendants_err _ _ _ _ _ _ ‹_›))))
            · cases h; exact Or.inr (Or.inr (Or.inr (Or.inl rfl)))
            · exact absurd h (by simp)

theorem parentPhase_ok_fields {db : Db} {teamId issueId : String} {d : UpdateIssueData}
    {patch p' : UpdatePatch} (h : parentPhase db teamId issueId d patch = .ok p') :
    p'.title = patch.title ∧ p'.description = patch.description ∧
    p'.projectId = patch.projectId ∧ p'.workflowStateId = patch.workflowStateId ∧
    p'.reviewedAt = patch.reviewedAt ∧ p'.reviewerId = patch.reviewerId ∧
    p'.reviewer = patch.reviewer ∧ p'.completedAt = patch.completedAt ∧
    p'.assigneeId = patch.assigneeId ∧ p'.assignee = patch.assignee ∧
    p'.priority = patch.priority ∧ p'.estimate = patch.estimate ∧
    p'.dueDate = patch.dueDate ∧ p'.difficulty = patch.difficulty ∧
    p'.number = patch.number := by
  simp only [parentPhase] at h
  repeat' split at h
  all_goals (try cases h)
  all_goals simp_all

theorem parentPhase_ok_parent {db : Db} {teamId issueId : String} {d : UpdateIssueData}
    {patch p' : UpdatePatch} (h : parentPhase db teamId issueId d patch = .ok p') :
    (d.parentId = none ∧ p'.parentId = patch.parentId) ∨
    p'.parentId = some none ∨
    (∃ pv p parentIssue,
      d.parentId = some pv ∧ jsTruthyStr pv = some p ∧
      db.issues.find? (fun i => i.id == p && i.teamId == teamId) = some parentIssue ∧
      (parentIssue.id == issueId) = false ∧
      (∀ e, ancestorWalk db teamId (db.issues.length + 2) [issueId] parentIssue.parentId ≠
        .error e) ∧
      checkDescendants db teamId p (db.issues.length + 2) issueId = .ok false ∧
      p'.parentId = some (some p)) := by
  simp only [parentPhase] at h
  split at h
  · cases h; exact Or.inl ⟨‹_›, rfl⟩
  · split at h
    · cases h; exact Or.inr (Or.inl (by simp))
    · split at h
      · exact absurd h (by simp)
      · split at h
        · exact absurd h (by simp)
        · split at h
          · exact absurd h (by simp)
          · split at h
            · exact absurd h (by simp)
            · exact absurd h (by simp)
            · cases h
              refine Or.inr (Or.inr ⟨_, _, _, ‹_›, ‹_›, ‹_›, by simp_all, ?_, ‹_›, by simp⟩)
              intro e' hc
              simp_all

theorem simpleFieldsPatch_pres (d : UpdateIssueData) (patch : UpdatePatch) :
    (simpleFieldsPatch d patch).parentId = patch.parentId ∧
    (simpleFieldsPatch d patch).workflowStateId = patch.workflowStateId ∧
    (simpleFieldsPatch d patch).reviewedAt = patch.reviewedAt ∧
    (simpleFieldsPatch d patch).reviewerId = patch.reviewerId ∧
    (simpleFieldsPatch d patch).reviewer = patch.reviewer ∧
    (simpleFieldsPatch d patch).completedAt = patch.completedAt ∧
    (simpleFieldsPatch d patch).number = patch.number ∧
    (simpleFieldsPatch d patch).assigneeId = patch.assigneeId ∧
    (simpleFieldsPatch d patch).assignee = patch.assignee ∧
    (simpleFieldsPatch d patch).estimate = patch.estimate ∧
    (simpleFieldsPatch d patch).dueDate = patch.dueDate ∧
    (simpleFieldsPatch d patch).difficulty = patch.difficulty ∧
    (simpleFieldsPatch d patch).priority = patch.priority := by
  simp only [simpleFieldsPatch]
  repeat' split
  all_goals simp

theorem restFieldsPatch_pres (d : UpdateIssueData) (patch : UpdatePatch) :
    (restFieldsPatch d patch).parentId = patch.parentId ∧
    (restFieldsPatch d patch).workflowStateId = patch.workflowStateId ∧
    (restFieldsPatch d patch).reviewedAt = patch.reviewedAt ∧
    (restFieldsPatch d patch).reviewerId = patch.reviewerId ∧
    (restFieldsPatch d patch).reviewer = patch.reviewer ∧
    (restFieldsPatch d patch).completedAt = patch.completedAt ∧
    (restFieldsPatch d patch).title = patch.title ∧
    (restFieldsPatch d patch).description = patch.description ∧
    (restFieldsPatch d patch).projectId = patch.projectId ∧
    (restFieldsPatch d patch).number =
      (match d.number with
       | some n => some n
       | none => patch.number) := by
  simp only [restFieldsPatch]
  repeat' split
  all_goals simp

theorem applyUpdate_some {db db3 : Db} {teamId issueId : String} {p : UpdatePatch}
    {now : Nat} {upd : Issue}
    (h : applyUpdate db teamId issueId p now = some (db3, upd)) :
    ∃ i, db.issues.find? (fun j => j.id == issueId && j.teamId == teamId) = some i ∧
      upd = applyPatch i p now ∧
      db3.issues =
        db.issues.map (fun j => if j.id == issueId && j.teamId == teamId then upd else j) ∧
      db3.workflowStates = db.workflowStates ∧ db3.teamMembers = db.teamMembers ∧
      db3.issueAssignees = db.issueAssignees ∧ db3.activities = db.activities ∧
      db3.issueLabels = db.issueLabels := by
  simp only [applyUpdate] at h
  split at h
  · exact absurd h (by simp)
  · rename_i i hi
    cases h
    exact ⟨i, hi, rfl, rfl, rfl, rfl, rfl, rfl, rfl⟩

theorem statusLog_actions {db : Db} {issueId userId userName : String} {d : UpdateIssueData}
    {old : OldValues} {updated : Issue} :
    ∀ a ∈ statusLog db issueId userId userName d old updated,
      a.action = "sent_to_review" ∨ a.action = "approved" ∨ a.action = "status_changed" := by
  intro a ha
  simp only [statusLog] at ha
  repeat' split at ha
  all_goals simp_all

theorem fieldLogs_actions {issueId userId userName : String} {d : UpdateIssueData}
    {old : OldValues} :
    ∀ a ∈ fieldLogs issueId userId userName d old, a.action = "updated" := by
  intro a ha
  simp only [fieldLogs, List.mem_append] at ha
  rcases ha with ((((h | h) | h) | h) | h) <;>
    · repeat' split at h
      all_goals simp_all

theorem assigneesLog_actions {db : Db} {issueId userId userName : String}
    {d : UpdateIssueData} {old : OldValues} :
    ∀ a ∈ assigneesLog db issueId userId userName d old,
      a.action = "reassigned" ∨ a.action = "assigned" := by
  intro a ha
  simp only [assigneesLog] at ha
  repeat' split at ha
  all_goals simp_all

theorem logActivities_shape (db : Db) (issueId : String) (d : UpdateIssueData)
    (old : OldValues) (updated : Issue) (u un : Option String) :
    (logActivities db issueId d old updated u un).issues = db.issues ∧
    (logActivities db issueId d old updated u un).workflowStates = db.workflowStates ∧
    (logActivities db issueId d old updated u un).teamMembers = db.teamMembers ∧
    (logActivities db issueId d old updated u un).issueAssignees = db.issueAssignees ∧
    ∃ acts, (logActivities db issueId d old updated u un).activities = db.activities ++ acts ∧
      ∀ a ∈ acts, a.action ≠ "sent_back" := by
  simp only [logActivities]
  split
  · refine ⟨by simp, by simp, by simp, by simp, _, rfl, ?_⟩
    intro a ha
    rcases List.mem_append.1 ha with h | h
    · rcases List.mem_append.1 h with h' | h'
      · rcases statusLog_actions a h' with h2 | h2 | h2 <;> simp [h2]
      · simp [fieldLogs_actions a h']
    · rcases assigneesLog_actions a h with h2 | h2 <;> simp [h2]
  · exact ⟨rfl, rfl, rfl, rfl, [], by simp, by simp⟩

theorem updateIssue_err_tables {db db' : Db} {teamId issueId : String} {d : UpdateIssueData}
    {u un : Option String} {now : Nat} {e : UpdateError}
    (h : updateIssue db teamId issueId d u un now = .err e db') :
    db'.issues = db.issues ∧ db'.workflowStates = db.workflowStates := by
  simp only [updateIssue] at h
  split at h
  · cases h; exact ⟨rfl, rfl⟩
  · rename_i cur hcur
    split at h
    · cases h; exact ⟨rfl, rfl⟩
    · split at h
      · cases h; exact ⟨rfl, rfl⟩
      · rename_i db1 hlab
        have t1 := labelsPhase_ok_tables hlab
        have t2 := assigneesPhase_tables db1 teamId issueId (renumberData db teamId cur d)
        split at h
        · cases h
          exact ⟨t2.1.trans t1.1, t2.2.1.trans t1.2.1⟩
        · split at h
          · cases h
            exact ⟨t2.1.trans t1.1, t2.2.1.trans t1.2.1⟩
          · exact absurd h (by simp)

theorem renumberData_fields (db : Db) (teamId : String) (cur : Issue) (d : UpdateIssueData) :
    (renumberData db teamId cur d).title = d.title ∧
    (renumberData db teamId cur d).description = d.description ∧
    (renumberData db teamId cur d).projectId = d.projectId ∧
    (renumberData db teamId cur d).workflowStateId = d.workflowStateId ∧
    (renumberData db teamId cur d).assigneeIds = d.assigneeIds ∧
    (renumberData db teamId cur d).assigneeId = d.assigneeId ∧
    (renumberData db teamId cur d).assignee = d.assignee ∧
    (renumberData db teamId cur d).priority = d.priority ∧
    (renumberData db teamId cur d).estimate = d.estimate ∧
    (renumberData db teamId cur d).labelIds = d.labelIds ∧
    (renumberData db teamId cur d).dueDate = d.dueDate ∧
    (renumberData db teamId cur d).difficulty = d.difficulty ∧
    (renumberData db teamId cur d).parentId = d.parentId ∧
    (renumberData db teamId cur d).reviewerId = d.reviewerId ∧
    (renumberData db teamId cur d).reviewer = d.reviewer := by
  simp only [renumberData]
  repeat' split
  all_goals simp

theorem renumberData_number_change {db : Db} {teamId : String} {cur : Issue}
    {d : UpdateIssueData} {p : Option String}
    (hp : d.projectId = some p) (hne : p ≠ cur.projectId) :
    (renumberData db teamId cur d).number = some (maxTeamNumber db teamId + 1) := by
  simp only [renumberData, hp]
  simp [hne]

theorem buildPatch_ok_inv {db : Db} {teamId issueId : String} {d : UpdateIssueData}
    {now : Nat} {patch : UpdatePatch}
    (h : buildPatch db teamId issueId d now = .ok patch) :
    ∃ p1, parentPhase db teamId issueId d {} = .ok p1 ∧
      ∃ p2, workflowPhase db teamId issueId d (simpleFieldsPatch d p1) now = .ok p2 ∧
        patch = restFieldsPatch d p2 := by
  simp only [buildPatch] at h
  split at h
  · exact absurd h (by simp)
  · rename_i p1 hp1
    split at h
    · exact absurd h (by simp)
    · rename_i p2 hp2
      cases h
      exact ⟨p1, hp1, p2, hp2, rfl⟩

theorem buildPatch_err {db : Db} {teamId issueId : String} {d : UpdateIssueData}
    {now : Nat} {e : UpdateError}
    (h : buildPatch db teamId issueId d now = .error e) :
    e = .parentNotFound ∨ e = .ownParent ∨ e = .circularAncestor ∨
    e = .circularDescendant ∨ e = .fuelExhausted ∨ e = .cannotMoveToDone ∨
    e = .reviewerIsAssignee ∨ e = .reviewerNotMember ∨ e = .reviewerRequired := by
  simp only [buildPatch] at h
  split at h
  · cases h
    rcases parentPhase_err ‹_› with h1 | h1 | h1 | h1 | h1 <;> simp [h1]
  · split at h
    · cases h
      rcases workflowPhase_err ‹_› with h1 | h1 | h1 | h1 <;> simp [h1]
    · exact absurd h (by simp)

theorem updateIssue_ok_inv {db db4 : Db} {teamId issueId : String} {d : UpdateIssueData}
    {u un : Option String} {now : Nat} {upd : Issue}
    (h : updateIssue db teamId issueId d u un now = .ok db4 upd) :
    ∃ cur patch db3,
      db.issues.find? (fun i => i.id == issueId) = some cur ∧
      (stateTypeOf db cur.workflowStateId == some StateType.review &&
        attemptedDisallowed d) = false ∧
      (∃ db1, labelsPhase db cur (renumberData db teamId cur d) issueId = .ok db1 ∧
        buildPatch (assigneesPhase db1 teamId issueId (renumberData db teamId cur d)).1
          teamId issueId
          (assigneesPhase db1 teamId issueId (renumberData db teamId cur d)).2 now =
            .ok patch ∧
        applyUpdate (assigneesPhase db1 teamId issueId (renumberData db teamId cur d)).1
          teamId issueId patch now = some (db3, upd)) ∧
      db4.issues = db3.issues ∧ db4.workflowStates = db3.workflowStates ∧
      db4.teamMembers = db3.teamMembers ∧ db4.issueAssignees = db3.issueAssignees ∧
      (∃ acts, db4.activities = db3.activities ++ acts ∧
        ∀ a ∈ acts, a.action ≠ "sent_back") := by
  simp only [updateIssue] at h
  split at h
  · exact absurd h (by simp)
  · rename_i cur hcur
    split at h
    · exact absurd h (by simp)
    · rename_i hlock
      split at h
      · exact absurd h (by simp)
      · rename_i db1 hlab
        split at h
        · exact absurd h (by simp)
        · rename_i patch hbp
          split at h
          · exact absurd h (by simp)
          · rename_i db3 updated hap
            injection h with h1 h2
            subst h2
            subst h1
            have ls := logActivities_shape db3 issueId
              (assigneesPhase db1 teamId issueId (renumberData db teamId cur d)).2
              (mkOldValues db cur) updated u un
            exact ⟨cur, patch, db3, hcur, by simpa using hlock,
              ⟨db1, hlab, hbp, hap⟩, ls.1, ls.2.1, ls.2.2.1, ls.2.2.2.1, ls.2.2.2.2⟩

theorem updateIssue_no_lock_err {db : Db} {teamId issueId : String} {d : UpdateIssueData}
    {u un : Option String} {now : Nat}
    (hdis : attemptedDisallowed d = false) :
    ∀ db', updateIssue db teamId issueId d u un now ≠ .err .lockViolation db' := by
  intro db' h
  simp only [updateIssue] at h
  split at h
  · exact absurd h (by simp)
  · split at h
    · simp_all
    · split at h
      · cases h
        rcases labelsPhase_err ‹_› with h1 | h1 <;> simp_all
      · split at h
        · cases h
          rcases buildPatch_err ‹_› with h1 | h1 | h1 | h1 | h1 | h1 | h1 | h1 | h1 <;>
            simp_all
        · split at h
          · exact absurd h (by simp)
          · exact absurd h (by simp)

/-! ### C1: the Done gate -/

/-- C1: a transition into a `completed`-type stage is accepted only when
the issue's current stage type is `review`; attempted from any other stage
type the call fails with an error and the stored issue rows are unchanged. -/
theorem C1_completed_gate (db : Db) (teamId issueId : String) (d : UpdateIssueData)
    (u un : Option String) (now : Nat) (cur : Issue) (sid : String)
    (hcur : db.issues.find? (fun i => i.id == issueId) = some cur)
    (hs : d.workflowStateId = some sid)
    (hcomp : stateTypeOf db sid = some StateType.completed) :
    (¬ stateTypeOf db cur.workflowStateId = some StateType.review →
      ∃ e db', updateIssue db teamId issueId d u un now = .err e db' ∧
        db'.issues = db.issues) ∧
    (∀ db4 upd, updateIssue db teamId issueId d u un now = .ok db4 upd →
      stateTypeOf db cur.workflowStateId = some StateType.review) := by
  have core : ∀ db4 upd, updateIssue db teamId issueId d u un now = .ok db4 upd →
      stateTypeOf db cur.workflowStateId = some StateType.review := by
    intro db4 upd hok
    obtain ⟨cur', patch, db3, hcur', hlock, ⟨db1, hlab, hbp, hap⟩, -⟩ :=
      updateIssue_ok_inv hok
    have hcc : cur' = cur := by
      rw [hcur] at hcur'
      exact (Option.some.inj hcur').symm
    subst hcc
    obtain ⟨p1, hp1, p2, hp2, hpatch⟩ := buildPatch_ok_inv hbp
    have af := assigneesPhase_fields db1 teamId issueId (renumberData db teamId cur' d)
    have rf := renumberData_fields db teamId cur' d
    have hws : (assigneesPhase db1 teamId issueId
        (renumberData db teamId cur' d)).2.workflowStateId = some sid := by
      rw [af.2.2.2.1, rf.2.2.2.1, hs]
    have t1 := labelsPhase_ok_tables hlab
    have t2 := assigneesPhase_tables db1 teamId issueId (renumberData db teamId cur' d)
    have hwseq : (assigneesPhase db1 teamId issueId
        (renumberData db teamId cur' d)).1.workflowStates = db.workflowStates :=
      t2.2.1.trans t1.2.1
    have hiseq : (assigneesPhase db1 teamId issueId
        (renumberData db teamId cur' d)).1.issues = db.issues :=
      t2.1.trans t1.1
    have hcomp' : stateTypeOf (assigneesPhase db1 teamId issueId
        (renumberData db teamId cur' d)).1 sid = some StateType.completed := by
      rw [stateTypeOf_congr hwseq]; exact hcomp
    obtain ⟨-, -, -, -, -, -, -, -, -, -, -, -, hw13, -⟩ := workflowPhase_some_ok hws hp2
    have hrev2 := (hw13 hcomp').1
    rw [currentTypeOf_congr hwseq hiseq] at hrev2
    unfold currentTypeOf at hrev2
    rw [hcur] at hrev2
    exact hrev2
  refine ⟨?_, core⟩
  intro hrev
  cases hres : updateIssue db teamId issueId d u un now with
  | ok db4 upd => exact absurd (core db4 upd hres) hrev
  | err e db' => exact ⟨e, db', rfl, (updateIssue_err_tables hres).1⟩

/-- C1 witness: in `fixDb`, issue `I1` sits in the started stage; moving it
straight to the `completed`-type stage `dn` is rejected with the rows
unchanged. -/
theorem C1_completed_gate_witness :
    stateTypeOf fixDb "dn" = some StateType.completed ∧
    ((¬ stateTypeOf fixDb (fixIssue "I1" 1 "st").workflowStateId = some StateType.review →
      ∃ e db', updateIssue fixDb "T" "I1" { workflowStateId := some "dn" } none none 5 =
          .err e db' ∧ db'.issues = fixDb.issues) ∧
     (∀ db4 upd, updateIssue fixDb "T" "I1" { workflowStateId := some "dn" } none none 5 =
          .ok db4 upd →
        stateTypeOf fixDb (fixIssue "I1" 1 "st").workflowStateId = some StateType.review)) :=
  ⟨by decide,
   C1_completed_gate fixDb "T" "I1" { workflowStateId := some "dn" } none none 5
     (fixIssue "I1" 1 "st") "dn" (by decide) (by decide) (by decide)⟩

/-! ### C2: the review lock -/

/-- C2: while an issue's stage type is `review`, a patch with any defined
field beyond `workflowStateId`/`reviewerId`/`reviewer` is rejected with the
lock violation and the store is left untouched, whoever the actor is; a
patch confined to those three fields is never rejected by the lock check. -/
theorem C2_review_lock (db : Db) (teamId issueId : String) (d : UpdateIssueData)
    (u un : Option String) (now : Nat) (cur : Issue)
    (hcur : db.issues.find? (fun i => i.id == issueId) = some cur)
    (hrev : stateTypeOf db cur.workflowStateId = some StateType.review) :
    (attemptedDisallowed d = true →
      updateIssue db teamId issueId d u un now = .err .lockViolation db) ∧
    (attemptedDisallowed d = false →
      ∀ db', updateIssue db teamId issueId d u un now ≠ .err .lockViolation db') := by
  constructor
  · intro hdis
    simp only [updateIssue, hcur]
    simp [hrev, hdis]
  · intro hdis
    exact updateIssue_no_lock_err hdis

/-- C2 witness: with `I1` under review, a title edit is rejected by the
lock with the store unchanged, and a patch carrying only the three review
fields never triggers the lock error. -/
theorem C2_review_lock_witness :
    (attemptedDisallowed { title := some "n" } = true →
      updateIssue fixDbReview "T" "I1" { title := some "n" } (some "U1") (some "Alice") 6 =
        .err .lockViolation fixDbReview) ∧
    (attemptedDisallowed { title := some "n" } = false →
      ∀ db', updateIssue fixDbReview "T" "I1" { title := some "n" } (some "U1") (some "Alice") 6 ≠
        .err .lockViolation db') :=
  C2_review_lock fixDbReview "T" "I1" { title := some "n" } (some "U1") (some "Alice") 6
    { (fixIssue "I1" 1 "rv") with
      reviewerId := some "U2"
      reviewer := some "Bob"
      reviewedAt := some 3 }
    (by decide) (by decide)

theorem find_team_eq : ∀ (l : List Issue) (issueId teamId : String) (cur : Issue),
    l.find? (fun i => i.id == issueId) = some cur → cur.teamId = teamId →
    l.find? (fun i => i.id == issueId && i.teamId == teamId) = some cur := by
  intro l
  induction l with
  | nil => intro _ _ _ h _; simp at h
  | cons x xs ih =>
    intro issueId teamId cur h ht
    by_cases hx : (x.id == issueId) = true
    · rw [List.find?] at h
      simp only [hx] at h
      cases h
      rw [List.find?]
      simp [hx, ht]
    · rw [List.find?] at h
      simp only [Bool.of_not_eq_true hx] at h
      rw [List.find?]
      have : (x.id == issueId && x.teamId == teamId) = false := by
        simp [Bool.of_not_eq_true hx]
      simp only [this]
      exact ih _ _ _ h ht

theorem foldl_max_base : ∀ (l : List Issue) (a : Nat),
    a ≤ l.foldl (fun acc i => max acc i.number) a := by
  intro l
  induction l with
  | nil => intro a; simp
  | cons y ys ih =>
    intro a
    exact le_trans (le_max_left a y.number) (ih (max a y.number))

theorem foldl_max_mem : ∀ (l : List Issue) (a : Nat) (i : Issue), i ∈ l →
    i.number ≤ l.foldl (fun acc j => max acc j.number) a := by
  intro l
  induction l with
  | nil => intro a i h; simp at h
  | cons y ys ih =>
    intro a i h
    rcases List.mem_cons.1 h with rfl | h
    · exact le_trans (le_max_right a i.number) (foldl_max_base ys (max a i.number))
    · exact ih _ _ h

theorem maxTeamNumber_ge {db : Db} {teamId : String} {i : Issue}
    (hmem : i ∈ db.issues) (ht : i.teamId = teamId) :
    i.number ≤ maxTeamNumber db teamId := by
  unfold maxTeamNumber
  exact foldl_max_mem _ 0 i (List.mem_filter.2 ⟨hmem, by simp [ht]⟩)

theorem createIssue_ok_inv {db db1 : Db} {teamId : String} {data : CreateIssueData}
    {creatorId creatorName newId : String} {now : Nat} {issue : Issue}
    (h : createIssue db teamId data creatorId creatorName newId now = .ok db1 issue) :
    issue.number = maxTeamNumber db teamId + 1 ∧
    issue.workflowStateId = data.workflowStateId ∧
    issue.completedAt = none ∧ issue.reviewedAt = none ∧
    issue.reviewerId = none ∧ issue.reviewer = none ∧
    issue.id = newId ∧ issue.teamId = teamId := by
  simp only [createIssue] at h
  repeat' split at h
  all_goals
    (first
      | exact CreateResult.noConfusion h
      | (injection h with h1 h2
         subst h2
         exact ⟨rfl, rfl, rfl, rfl, rfl, rfl, rfl, rfl⟩))

/-- Common consequence of an accepted update that carries a
`workflowStateId`: the stored row takes that stage, and `completedAt` is
stamped or cleared exactly by the type of the target stage. -/
theorem updateIssue_ok_ws_patch {db db4 : Db} {teamId issueId : String}
    {d : UpdateIssueData} {u un : Option String} {now : Nat} {upd : Issue} {sid : String}
    (hok : updateIssue db teamId issueId d u un now = .ok db4 upd)
    (hs : d.workflowStateId = some sid) :
    upd.workflowStateId = sid ∧
    (stateTypeOf db sid = some StateType.completed → upd.completedAt = some now) ∧
    (¬ stateTypeOf db sid = some StateType.completed → upd.completedAt = none) := by
  obtain ⟨cur', patch, db3, hcur', hlock, ⟨db1, hlab, hbp, hap⟩, -⟩ := updateIssue_ok_inv hok
  obtain ⟨p1, hp1, p2, hp2, hpatch⟩ := buildPatch_ok_inv hbp
  have af := assigneesPhase_fields db1 teamId issueId (renumberData db teamId cur' d)
  have rf := renumberData_fields db teamId cur' d
  have hws : (assigneesPhase db1 teamId issueId
      (renumberData db teamId cur' d)).2.workflowStateId = some sid := by
    rw [af.2.2.2.1, rf.2.2.2.1, hs]
  have t1 := labelsPhase_ok_tables hlab
  have t2 := assigneesPhase_tables db1 teamId issueId (renumberData db teamId cur' d)
  have hwseq : (assigneesPhase db1 teamId issueId
      (renumberData db teamId cur' d)).1.workflowStates = db.workflowStates :=
    t2.2.1.trans t1.2.1
  obtain ⟨hw1, -, -, -, -, -, -, -, -, -, -, -, hw13, hw14⟩ := workflowPhase_some_ok hws hp2
  have rp := restFieldsPatch_pres (assigneesPhase db1 teamId issueId
      (renumberData db teamId cur' d)).2 p2
  subst hpatch
  obtain ⟨i, hfind, hupd, -⟩ := applyUpdate_some hap
  subst hupd
  refine ⟨?_, ?_, ?_⟩
  · have hpw : (restFieldsPatch (assigneesPhase db1 teamId issueId
        (renumberData db teamId cur' d)).2 p2).workflowStateId = some sid := by
      rw [rp.2.1, hw1]
    simp [applyPatch, hpw]
  · intro hcomp
    have hcomp' : stateTypeOf (assigneesPhase db1 teamId issueId
        (renumberData db teamId cur' d)).1 sid = some StateType.completed := by
      rw [stateTypeOf_congr hwseq]; exact hcomp
    have hpc : (restFieldsPatch (assigneesPhase db1 teamId issueId
        (renumberData db teamId cur' d)).2 p2).completedAt = some (some now) := by
      rw [rp.2.2.2.2.2.1, (hw13 hcomp').2]
    simp [applyPatch, hpc]
  · intro hcomp
    have hcomp' : ¬ stateTypeOf (assigneesPhase db1 teamId issueId
        (renumberData db teamId cur' d)).1 sid = some StateType.completed := by
      rw [stateTypeOf_congr hwseq]; exact hcomp
    have hpc : (restFieldsPatch (assigneesPhase db1 teamId issueId
        (renumberData db teamId cur' d)).2 p2).completedAt = some none := by
      rw [rp.2.2.2.2.2.1, hw14 hcomp']
    simp [applyPatch, hpc]

/-- Common consequence of an accepted update without a `workflowStateId`:
the stage and `completedAt` of the stored row are untouched. -/
theorem updateIssue_ok_no_ws {db db4 : Db} {teamId issueId : String}
    {d : UpdateIssueData} {u un : Option String} {now : Nat} {upd : Issue} {cur : Issue}
    (hok : updateIssue db teamId issueId d u un now = .ok db4 upd)
    (hs : d.workflowStateId = none)
    (hcur : db.issues.find? (fun i => i.id == issueId) = some cur)
    (ht : cur.teamId = teamId) :
    upd.completedAt = cur.completedAt ∧ upd.workflowStateId = cur.workflowStateId := by
  obtain ⟨cur', patch, db3, hcur', hlock, ⟨db1, hlab, hbp, hap⟩, -⟩ := updateIssue_ok_inv hok
  have hcc : cur' = cur := by
    rw [hcur] at hcur'
    exact (Option.some.inj hcur').symm
  subst hcc
  obtain ⟨p1, hp1, p2, hp2, hpatch⟩ := buildPatch_ok_inv hbp
  have af := assigneesPhase_fields db1 teamId issueId (renumberData db teamId cur' d)
  have rf := renumberData_fields db teamId cur' d
  have hws2 : (assigneesPhase db1 teamId issueId
      (renumberData db teamId cur' d)).2.workflowStateId = none := by
    rw [af.2.2.2.1, rf.2.2.2.1, hs]
  rw [workflowPhase_none hws2] at hp2
  have hp2eq : p2 = simpleFieldsPatch (assigneesPhase db1 teamId issueId
      (renumberData db teamId cur' d)).2 p1 := (Except.ok.inj hp2).symm
  have pp := parentPhase_ok_fields hp1
  have sp := simpleFieldsPatch_pres (assigneesPhase db1 teamId issueId
      (renumberData db teamId cur' d)).2 p1
  have rp := restFieldsPatch_pres (assigneesPhase db1 teamId issueId
      (renumberData db teamId cur' d)).2 p2
  have hpw : patch.workflowStateId = none := by
    rw [hpatch, rp.2.1, hp2eq, sp.2.1, pp.2.2.2.1]
  have hpc : patch.completedAt = none := by
    rw [hpatch, rp.2.2.2.2.2.1, hp2eq, sp.2.2.2.2.2.1, pp.2.2.2.2.2.2.2.1]
  have t1 := labelsPhase_ok_tables hlab
  have t2 := assigneesPhase_tables db1 teamId issueId (renumberData db teamId cur' d)
  have hiseq : (assigneesPhase db1 teamId issueId
      (renumberData db teamId cur' d)).1.issues = db.issues :=
    t2.1.trans t1.1
  obtain ⟨i, hfind, hupd, -⟩ := applyUpdate_some hap
  rw [hiseq, find_team_eq db.issues issueId teamId cur' hcur ht] at hfind
  have hic : i = cur' := (Option.some.inj hfind).symm
  subst hic
  subst hupd
  constructor
  · simp [applyPatch, hpc]
  · simp [applyPatch, hpw]

/-- Common consequence of an accepted update whose patch carried a project
change: the stored row takes the freshly allocated team number. -/
theorem updateIssue_ok_renumber {db db4 : Db} {teamId issueId : String}
    {d : UpdateIssueData} {u un : Option String} {now : Nat} {upd : Issue} {cur : Issue}
    {p : Option String}
    (hok : updateIssue db teamId issueId d u un now = .ok db4 upd)
    (hcur : db.issues.find? (fun i => i.id == issueId) = some cur)
    (hp : d.projectId = some p) (hne : p ≠ cur.projectId) :
    upd.number = maxTeamNumber db teamId + 1 := by
  obtain ⟨cur', patch, db3, hcur', hlock, ⟨db1, hlab, hbp, hap⟩, -⟩ := updateIssue_ok_inv hok
  have hcc : cur' = cur := by
    rw [hcur] at hcur'
    exact (Option.some.inj hcur').symm
  subst hcc
  obtain ⟨p1, hp1, p2, hp2, hpatch⟩ := buildPatch_ok_inv hbp
  have af := assigneesPhase_fields db1 teamId issueId (renumberData db teamId cur' d)
  have hnum : (assigneesPhase db1 teamId issueId
      (renumberData db teamId cur' d)).2.number = some (maxTeamNumber db teamId + 1) := by
    rw [af.2.2.2.2.2.2.2.2.2.2.2.2]
    exact renumberData_number_change hp hne
  have rp := restFieldsPatch_pres (assigneesPhase db1 teamId issueId
      (renumberData db teamId cur' d)).2 p2
  have hpn : patch.number = some (maxTeamNumber db teamId + 1) := by
    rw [hpatch, rp.2.2.2.2.2.2.2.2.2, hnum]
  obtain ⟨i, hfind, hupd, -⟩ := applyUpdate_some hap
  subst hupd
  simp [applyPatch, hpn]

/-- An issue whose current stage type is `review` accepts a patch that
carries only a `workflowStateId`, whatever the target stage: the lock
admits it, the Done gate is satisfied from review, and entering review
from review demands no reviewer. -/
theorem updateIssue_ws_only_ok {db : Db} {teamId issueId t : String} {u un : Option String}
    {now : Nat} {issue : Issue}
    (hi : db.issues.find? (fun i => i.id == issueId) = some issue)
    (hr : stateTypeOf db issue.workflowStateId = some StateType.review)
    (ht : issue.teamId = teamId) :
    ∃ db4 upd, updateIssue db teamId issueId { workflowStateId := some t } u un now =
      .ok db4 upd := by
  have hct : currentTypeOf db issueId = some StateType.review := by
    simp [currentTypeOf, hi, hr]
  have hfd : db.issues.find? (fun i => i.id == issueId && i.teamId == teamId) = some issue :=
    find_team_eq _ _ _ _ hi ht
  simp only [updateIssue, hi, labelsPhase, assigneesPhase, renumberData, buildPatch,
    parentPhase, simpleFieldsPatch, workflowPhase, restFieldsPatch, applyUpdate,
    attemptedDisallowed, hct, hr, hfd]
  simp

/-- An accepted `updateIssue` only appends activities whose action is not
`sent_back`, on top of the untouched prior log. -/
theorem updateIssue_ok_activities {db db4 : Db} {teamId issueId : String}
    {d : UpdateIssueData} {u un : Option String} {now : Nat} {upd : Issue}
    (hok : updateIssue db teamId issueId d u un now = .ok db4 upd) :
    ∃ acts, db4.activities = db.activities ++ acts ∧ ∀ a ∈ acts, a.action ≠ "sent_back" := by
  obtain ⟨cur, patch, db3, hcur, hlock, ⟨db1, hlab, hbp, hap⟩, hiss, hws, htm, hia,
    ⟨acts, hacts, hno⟩⟩ := updateIssue_ok_inv hok
  obtain ⟨i, hfind, hupd, him, hwseq, htmeq, hiaeq, hact, hil⟩ := applyUpdate_some hap
  have t1 := labelsPhase_ok_tables hlab
  have t2 := assigneesPhase_tables db1 teamId issueId (renumberData db teamId cur d)
  exact ⟨acts, by rw [hacts, hact, t2.2.2.2.2.1, t1.2.2.2.2.1], hno⟩

/-! ### C5: send_back demands a reason and records it -/

/-- C5: with an authorized caller and the issue under review, a `send_back`
decision whose reason is missing or shorter than 10 characters after
trimming is rejected with the store untouched; with a sufficient reason
the issue moves to the resolved target stage (explicit target or the
default Todo, as computed by `resolveReviewAction`) and exactly one
`sent_back` activity is appended, carrying that reason in its metadata. -/
theorem C5_send_back (db : Db) (teamId issueId userId userName : String) (body : ReviewBody)
    (now : Nat) (tm : TeamMember) (issue : Issue)
    (hm : db.teamMembers.find? (fun m => m.teamId == teamId && m.userId == userId) = some tm)
    (hi : db.issues.find? (fun i => i.id == issueId) = some issue)
    (hr : stateTypeOf db issue.workflowStateId = some StateType.review)
    (hauth : tm.role = "owner" ∨ tm.role = "admin" ∨ issue.reviewerId = some userId)
    (haction : body.action = some "send_back") :
    ((body.reason = none ∨ ∃ r, body.reason = some r ∧ (jsTrim r).length < 10) →
      reviewPOST db teamId issueId userId userName body now = .err .reasonRequired db) ∧
    (∀ r t, body.reason = some r → 10 ≤ (jsTrim r).length →
      issue.teamId = teamId →
      resolveReviewAction db teamId (db.workflowStates.filter (fun s => s.teamId == teamId))
        body = .ok (some t, none) →
      ∃ db' upd, reviewPOST db teamId issueId userId userName body now = .ok db' upd ∧
        upd.workflowStateId = t ∧
        ∃ act, db'.activities.filter (fun a => a.action == "sent_back") =
          db.activities.filter (fun a => a.action == "sent_back") ++ [act] ∧
          act.metadata = some { reason := some r } ∧
          act.issueId = issueId ∧ act.userId = userId ∧ act.userName = userName) := by
  have hauthb : (!(tm.role == "owner" || tm.role == "admin") &&
      !(issue.reviewerId == some userId)) = false := by
    rcases hauth with h | h | h <;> simp [h]
  constructor
  · intro hbad
    have hresolve : resolveReviewAction db teamId
        (db.workflowStates.filter (fun s => s.teamId == teamId)) body =
          .error .reasonRequired := by
      rcases hbad with hb | ⟨r, hb, hlen⟩
      · simp [resolveReviewAction, haction, hb]
      · simp [resolveReviewAction, haction, hb, hlen]
    rcases hauth with h | h | h <;>
      · simp only [reviewPOST, hm, hi]
        simp [hr, hresolve, h]
  · intro r t hre hlen hteam hres
    have hrne : (r == "") = false := by
      by_cases hc : r = ""
      · subst hc
        exact absurd hlen (by decide)
      · simp [hc]
    obtain ⟨db4, upd, hok⟩ := @updateIssue_ws_only_ok db teamId issueId t (some userId)
      (some userName) now issue hi hr hteam
    obtain ⟨acts, hacts, hno⟩ := updateIssue_ok_activities hok
    have hupd := updateIssue_ok_ws_patch hok rfl
    have hfe : acts.filter (fun a => a.action == "sent_back") = [] := by
      rw [List.filter_eq_nil_iff]
      intro a ha
      simp [hno a ha]
    have ha1 : (body.action == some "approve") = false := by simp [haction]
    have ha2 : (body.action == some "send_back") = true := by simp [haction]
    rcases hauth with h | h | h <;>
      · simp only [reviewPOST, hm, hi]
        simp only [hr, hres, beq_self_eq_true, Bool.not_true, Bool.false_and,
          Bool.and_false, Bool.true_or, Bool.or_true, Bool.false_eq_true, if_false, h]
        rw [hok]
        refine ⟨_, upd, rfl, hupd.1, ?_⟩
        refine ⟨{ issueId := issueId, userId := userId, userName := userName,
                  action := "sent_back", field := none, oldValue := none,
                  newValue := some (jsStrOr (Option.map (fun s => s.name)
                    (List.find? (fun s => some s.id == some t)
                      (List.filter (fun s => s.teamId == teamId) db.workflowStates)))
                    "previous state"),
                  metadata := some { reason := some r } }, ?_, rfl, rfl, rfl, rfl⟩
        simp only [ha1, ha2, Bool.false_eq_true, if_false, if_true]
        rw [hacts, List.filter_append, List.filter_append, hfe]
        simp [hre, jsTruthyStr, hrne]

/-- C5 witness: admin `U2` sends `I1` (under review in `fixDbReview`) back
with the 15-character reason "needs more tests" and no explicit target: a
short reason is rejected with the store untouched, the sufficient reason
moves the issue to the default Todo stage `td` and appends exactly one
`sent_back` activity carrying the reason. -/
theorem C5_send_back_witness :
    (reviewPOST fixDbReview "T" "I1" "U2" "Bob"
        { action := some "send_back", reason := some "too short" } 8 =
      .err .reasonRequired fixDbReview) ∧
    (∃ db' upd, reviewPOST fixDbReview "T" "I1" "U2" "Bob"
        { action := some "send_back", reason := some "needs more tests" } 8 = .ok db' upd ∧
      upd.workflowStateId = "td" ∧
      ∃ act, db'.activities.filter (fun a => a.action == "sent_back") =
        fixDbReview.activities.filter (fun a => a.action == "sent_back") ++ [act] ∧
        act.metadata = some { reason := some "needs more tests" } ∧
        act.issueId = "I1" ∧ act.userId = "U2" ∧ act.userName = "Bob") :=
  ⟨(C5_send_back fixDbReview "T" "I1" "U2" "Bob"
      { action := some "send_back", reason := some "too short" } 8
      { teamId := "T", userId := "U2", userName := "Bob", role := "admin" }
      { (fixIssue "I1" 1 "rv") with
        reviewerId := some "U2"
        reviewer := some "Bob"
        reviewedAt := some 3 }
      (by decide) (by decide) (by decide) (by decide) rfl).1
    (Or.inr ⟨"too short", rfl, by decide⟩),
   (C5_send_back fixDbReview "T" "I1" "U2" "Bob"
      { action := some "send_back", reason := some "needs more tests" } 8
      { teamId := "T", userId := "U2", userName := "Bob", role := "admin" }
      { (fixIssue "I1" 1 "rv") with
        reviewerId := some "U2"
        reviewer := some "Bob"
        reviewedAt := some 3 }
      (by decide) (by decide) (by decide) (by decide) rfl).2
    "needs more tests" "td" rfl (by decide) (by decide) rfl⟩

/-! ### C4 (amended), C9, C10 -/

/-- C4 (amended): every accepted `updateIssue` that carries a
`workflowStateId` re-establishes the biconditional — entering a
`completed`-type stage stamps `completedAt := now`, entering any other
stage clears it to null — and an accepted update without a
`workflowStateId` leaves both stage and `completedAt` untouched; but
`createIssue` always stores `completedAt = null` whatever the initial
stage's type, so at creation the biconditional holds only when the
initial stage's type is not `completed`. -/
theorem C4_completedAt_amended :
    (∀ (db : Db) (teamId issueId : String) (d : UpdateIssueData) (u un : Option String)
       (now : Nat) (db4 : Db) (upd : Issue) (sid : String),
       updateIssue db teamId issueId d u un now = .ok db4 upd →
       d.workflowStateId = some sid →
       stateTypeOf db sid = some StateType.completed →
       upd.workflowStateId = sid ∧ upd.completedAt = some now) ∧
    (∀ (db : Db) (teamId issueId : String) (d : UpdateIssueData) (u un : Option String)
       (now : Nat) (db4 : Db) (upd : Issue) (sid : String),
       updateIssue db teamId issueId d u un now = .ok db4 upd →
       d.workflowStateId = some sid →
       ¬ stateTypeOf db sid = some StateType.completed →
       upd.workflowStateId = sid ∧ upd.completedAt = none) ∧
    (∀ (db : Db) (teamId issueId : String) (d : UpdateIssueData) (u un : Option String)
       (now : Nat) (db4 : Db) (upd : Issue) (cur : Issue),
       updateIssue db teamId issueId d u un now = .ok db4 upd →
       d.workflowStateId = none →
       db.issues.find? (fun i => i.id == issueId) = some cur →
       cur.teamId = teamId →
       upd.completedAt = cur.completedAt ∧ upd.workflowStateId = cur.workflowStateId) ∧
    (∀ (db : Db) (teamId : String) (data : CreateIssueData) (cid cname newId : String)
       (now : Nat) (db1 : Db) (issue : Issue),
       createIssue db teamId data cid cname newId now = .ok db1 issue →
       issue.workflowStateId = data.workflowStateId ∧ issue.completedAt = none) := by
  refine ⟨?_, ?_, ?_, ?_⟩
  · intro db teamId issueId d u un now db4 upd sid hok hs hcomp
    have h := updateIssue_ok_ws_patch hok hs
    exact ⟨h.1, h.2.1 hcomp⟩
  · intro db teamId issueId d u un now db4 upd sid hok hs hcomp
    have h := updateIssue_ok_ws_patch hok hs
    exact ⟨h.1, h.2.2 hcomp⟩
  · intro db teamId issueId d u un now db4 upd cur hok hs hcur ht
    exact updateIssue_ok_no_ws hok hs hcur ht
  · intro db teamId data cid cname newId now db1 issue h
    have hi := createIssue_ok_inv h
    exact ⟨hi.2.1, hi.2.2.1⟩

/-- C4 witness: approving `I1` out of review into the `completed`-type
stage `dn` at time 7 stores stage `dn` with `completedAt = 7`. -/
theorem C4_completedAt_amended_witness :
    ((updateIssue fixDbReview "T" "I1" { workflowStateId := some "dn" }
        (some "U2") (some "Bob") 7).issue?).map
      (fun i => (i.workflowStateId, i.completedAt)) = some ("dn", some 7) := by
  cases hok : updateIssue fixDbReview "T" "I1" { workflowStateId := some "dn" }
      (some "U2") (some "Bob") 7 with
  | err e db' =>
    have hsome : ((updateIssue fixDbReview "T" "I1" { workflowStateId := some "dn" }
        (some "U2") (some "Bob") 7).issue?).isSome = true := by decide
    rw [hok] at hsome
    simp [UpdResult.issue?] at hsome
  | ok db4 upd =>
    have h := C4_completedAt_amended.1 fixDbReview "T" "I1" _ (some "U2") (some "Bob") 7
      db4 upd "dn" hok rfl (by decide)
    simp [UpdResult.issue?, h.1, h.2]

/-- C9: `createIssue` allocates the team's maximum plus one (1 on an empty
team, since the maximum is 0), strictly above every stored number of the
team; and an accepted update that changes the project re-allocates the
team's maximum plus one instead of keeping the old number. -/
theorem C9_numbering :
    (∀ (db : Db) (teamId : String) (data : CreateIssueData) (cid cname newId : String)
       (now : Nat) (db1 : Db) (issue : Issue),
       createIssue db teamId data cid cname newId now = .ok db1 issue →
       issue.number = maxTeamNumber db teamId + 1 ∧
       ∀ i ∈ db.issues, i.teamId = teamId → i.number < issue.number) ∧
    (∀ (db : Db) (teamId issueId : String) (d : UpdateIssueData) (u un : Option String)
       (now : Nat) (db4 : Db) (upd : Issue) (cur : Issue) (p : Option String),
       updateIssue db teamId issueId d u un now = .ok db4 upd →
       db.issues.find? (fun i => i.id == issueId) = some cur →
       d.projectId = some p → p ≠ cur.projectId →
       upd.number = maxTeamNumber db teamId + 1 ∧
       (cur.teamId = teamId → cur.number < upd.number)) := by
  constructor
  · intro db teamId data cid cname newId now db1 issue h
    have hi := createIssue_ok_inv h
    refine ⟨hi.1, ?_⟩
    intro i hmem ht
    have hle := maxTeamNumber_ge hmem ht
    rw [hi.1]
    omega
  · intro db teamId issueId d u un now db4 upd cur p hok hcur hp hne
    have hnum := updateIssue_ok_renumber hok hcur hp hne
    refine ⟨hnum, ?_⟩
    intro ht
    have hmem : cur ∈ db.issues := List.mem_of_find?_eq_some hcur
    have hle := maxTeamNumber_ge hmem ht
    rw [hnum]
    omega

/-- C9 witness: on `fixDbProj` (maximum 7), moving `I1` from `P1` to `P2`
re-allocates number 8, larger than its old number 1; creation in `fixDb`
(maximum 1) allocates 2. -/
theorem C9_numbering_witness :
    ((createIssue fixDb "T" { title := "n", workflowStateId := "td" }
        "U1" "Alice" "I9" 11).issue?).map (fun i => i.number) = some 2 ∧
    ((updateIssue fixDbProj "T" "I1" { projectId := some (some "P2") }
        none none 5).issue?).map (fun i => i.number) = some 8 := by
  constructor
  · cases hok : createIssue fixDb "T" { title := "n", workflowStateId := "td" }
        "U1" "Alice" "I9" 11 with
    | err e db' =>
      have hsome : ((createIssue fixDb "T" { title := "n", workflowStateId := "td" }
          "U1" "Alice" "I9" 11).issue?).isSome = true := by decide
      rw [hok] at hsome
      simp [CreateResult.issue?] at hsome
    | ok db1 issue =>
      have h := (C9_numbering.1 fixDb "T" _ "U1" "Alice" "I9" 11 db1 issue hok).1
      have hmax : maxTeamNumber fixDb "T" = 1 := by decide
      simp [CreateResult.issue?, h, hmax]
  · cases hok : updateIssue fixDbProj "T" "I1" { projectId := some (some "P2") }
        none none 5 with
    | err e db' =>
      have hsome : ((updateIssue fixDbProj "T" "I1" { projectId := some (some "P2") }
          none none 5).issue?).isSome = true := by decide
      rw [hok] at hsome
      simp [UpdResult.issue?] at hsome
    | ok db4 upd =>
      have h := (C9_numbering.2 fixDbProj "T" "I1" _ none none 5 db4 upd
        { (fixIssue "I1" 1 "st") with projectId := some "P1" } (some "P2")
        hok (by decide) rfl (by decide)).1
      have hmax : maxTeamNumber fixDbProj "T" = 7 := by decide
      simp [UpdResult.issue?, h, hmax]

/-- C10: `createIssue` applies no workflow rule to the initial stage — for
any target stage (`completed`- and `review`-type included, with no parent
and no labels in the request so no unrelated validation interferes) the
issue is created in that stage with `completedAt`, `reviewedAt`,
`reviewerId` and `reviewer` all null. -/
theorem C10_creation_ignores_workflow :
    ∀ (db : Db) (teamId : String) (data : CreateIssueData) (cid cname newId : String)
      (now : Nat),
      data.parentId = none → data.labelIds = none →
      ∃ db1 issue,
        createIssue db teamId data cid cname newId now = .ok db1 issue ∧
        issue.workflowStateId = data.workflowStateId ∧
        issue.completedAt = none ∧ issue.reviewedAt = none ∧
        issue.reviewerId = none ∧ issue.reviewer = none := by
  intro db teamId data cid cname newId now hpar hlab
  cases hres : createIssue db teamId data cid cname newId now with
  | ok db1 issue =>
    have hi := createIssue_ok_inv hres
    exact ⟨db1, issue, rfl, hi.2.1, hi.2.2.1, hi.2.2.2.1, hi.2.2.2.2.1, hi.2.2.2.2.2.1⟩
  | err e db' =>
    exfalso
    simp only [createIssue, hpar, hlab] at hres
    simp [jsTruthyStr, dedupKeepFirst] at hres

/-- C10 witness: creating straight into the `review`-type stage `rv`
succeeds with all four review/completion fields null. -/
theorem C10_creation_ignores_workflow_witness :
    ∃ db1 issue,
      createIssue fixDb "T" { title := "n", workflowStateId := "rv" } "U1" "Alice" "I9" 11 =
        .ok db1 issue ∧
      issue.workflowStateId = ({ title := "n", workflowStateId := "rv" } :
        CreateIssueData).workflowStateId ∧
      issue.completedAt = none ∧ issue.reviewedAt = none ∧
      issue.reviewerId = none ∧ issue.reviewer = none :=
  C10_creation_ignores_workflow fixDb "T" { title := "n", workflowStateId := "rv" }
    "U1" "Alice" "I9" 11 rfl rfl

/-- C3, evaluation at the failing input: `I1` is in a started stage and
assigned exactly to `U1`, yet moving it to the review stage with
`reviewerId = U1` is accepted and records `U1` as the reviewer — the
self-review rejection demanded by the claim never fires, because the
shadowed re-fetch drops the assignee list. -/
theorem C3_self_review_accepted :
    ((updateIssue fixDb "T" "I1"
        { workflowStateId := some "rv", reviewerId := some (some "U1") }
        (some "U1") (some "Alice") 5).issue?).map
          (fun i => (i.reviewerId, i.reviewedAt, i.workflowStateId)) =
      some (some "U1", some 5, "rv") ∧
    (issueAssigneesOf fixDb "I1").map (fun a => a.userId) = ["U1"] ∧
    stateTypeOf fixDb "rv" = some StateType.review ∧
    stateTypeOf fixDb "st" = some StateType.started := by
  decide

/-! ### C4: completedAt iff completed-stage fails at creation -/

/-- C4, counterexample: an issue created directly into the `completed`-type
stage `dn` has `completedAt = null`, so "completedAt is non-null iff the
current stage type is completed" does not hold at creation. -/
theorem C4_counterexample_creation :
    ((createIssue fixDb "T" { title := "n", workflowStateId := "dn" } "U1" "Alice" "I9" 11).issue?).map
        (fun i =>
          (stateTypeOf (createIssue fixDb "T" { title := "n", workflowStateId := "dn" }
              "U1" "Alice" "I9" 11).db i.workflowStateId,
           i.completedAt)) =
      some (some StateType.completed, none) := by
  decide

/-! ### C7: the userId filter does not restrict which assignees are credited -/

/-- C7, counterexample: with the `userId` filter set to `U1`, the summary
still contains a row for the co-assignee `U2` with `totalClosed = 1`, so
counters of non-matching assignees are affected. -/
theorem C7_counterexample_filter :
    (aepSummary fixDbAep "T" none (some "U1")).map (fun s => (s.userId, s.totalClosed)) =
      [("U1", 1), ("U2", 1)] := by
  decide

/-! ### C6: per-issue counter bumps of the closure aggregator -/

theorem bumpSummary_names (s : AepUserSummary) (i : Issue) :
    (bumpSummary s i).userId = s.userId ∧ (bumpSummary s i).userName = s.userName := by
  simp only [bumpSummary]
  repeat' split
  all_goals simp

theorem bumpSummary_counters (s : AepUserSummary) (i : Issue) :
    (bumpSummary s i).totalClosed = s.totalClosed + 1 ∧
    (bumpSummary s i).sClosed = s.sClosed + (if i.difficulty == some "S" then 1 else 0) ∧
    (bumpSummary s i).mClosed = s.mClosed + (if i.difficulty == some "M" then 1 else 0) ∧
    (bumpSummary s i).lClosed = s.lClosed + (if i.difficulty == some "L" then 1 else 0) := by
  simp only [bumpSummary]
  repeat' split
  all_goals simp_all

/-- C6: a counted issue always bumps `totalClosed` and the matching
difficulty bucket by one; without a due date neither `onTimeClosed` nor
`delayedClosed` moves; with a due date the delivered-by timestamp is
`reviewedAt`, else `completedAt`, else `updatedAt`, and after day-truncation
of both sides `onTimeClosed` is bumped when delivered-by is at most the due
date, `delayedClosed` otherwise. -/
theorem C6_timeliness (s : AepUserSummary) (i : Issue) :
    (bumpSummary s i).totalClosed = s.totalClosed + 1 ∧
    (bumpSummary s i).sClosed = s.sClosed + (if i.difficulty == some "S" then 1 else 0) ∧
    (bumpSummary s i).mClosed = s.mClosed + (if i.difficulty == some "M" then 1 else 0) ∧
    (bumpSummary s i).lClosed = s.lClosed + (if i.difficulty == some "L" then 1 else 0) ∧
    (i.dueDate = none →
      (bumpSummary s i).onTimeClosed = s.onTimeClosed ∧
      (bumpSummary s i).delayedClosed = s.delayedClosed) ∧
    (∀ due, i.dueDate = some due →
      (truncDay ((i.reviewedAt.orElse (fun _ => i.completedAt)).getD i.updatedAt) ≤
          truncDay due →
        (bumpSummary s i).onTimeClosed = s.onTimeClosed + 1 ∧
        (bumpSummary s i).delayedClosed = s.delayedClosed) ∧
      (truncDay due <
          truncDay ((i.reviewedAt.orElse (fun _ => i.completedAt)).getD i.updatedAt) →
        (bumpSummary s i).delayedClosed = s.delayedClosed + 1 ∧
        (bumpSummary s i).onTimeClosed = s.onTimeClosed)) := by
  simp only [bumpSummary]
  repeat' split
  all_goals (simp_all; try omega)

/-- Witness for C6 at the walkthrough example: difficulty `M`, due date on
day 100, `reviewedAt` day 99, `completedAt` day 102: the issue counts as
`mClosed = 1`, on time, not delayed. -/
theorem C6_timeliness_witness :
    fixDoneIssueM.dueDate = some (100 * msPerDay + 7200000) ∧
    truncDay ((fixDoneIssueM.reviewedAt.orElse (fun _ => fixDoneIssueM.completedAt)).getD
        fixDoneIssueM.updatedAt) ≤ truncDay (100 * msPerDay + 7200000) ∧
    (bumpSummary (freshSummary "Alice" "U1") fixDoneIssueM).mClosed = 1 ∧
    (bumpSummary (freshSummary "Alice" "U1") fixDoneIssueM).onTimeClosed = 1 ∧
    (bumpSummary (freshSummary "Alice" "U1") fixDoneIssueM).delayedClosed = 0 ∧
    (bumpSummary (freshSummary "Alice" "U1") fixDoneIssueM).totalClosed = 1 := by
  have T := C6_timeliness (freshSummary "Alice" "U1") fixDoneIssueM
  refine ⟨by decide, by decide, ?_, ?_, ?_, ?_⟩
  · rw [T.2.2.1]; decide
  · rw [((T.2.2.2.2.2 (100 * msPerDay + 7200000) (by decide)).1 (by decide)).1]; decide
  · rw [((T.2.2.2.2.2 (100 * msPerDay + 7200000) (by decide)).1 (by decide)).2]; decide
  · rw [T.1]; decide

/-! ### C7 infrastructure: counter accounting of the aggregation loop -/

theorem bumpSummary_userId (s : AepUserSummary) (i : Issue) :
    (bumpSummary s i).userId = s.userId := (bumpSummary_names s i).1

theorem counterOf_cons_pos (f : AepUserSummary → Nat) (z : AepUserSummary)
    (l : List AepUserSummary) (u : String) (h : z.userId = u) :
    counterOf f (z :: l) u = f z := by
  simp [counterOf, List.find?_cons_of_pos, h]

theorem counterOf_cons_neg (f : AepUserSummary → Nat) (z : AepUserSummary)
    (l : List AepUserSummary) (u : String) (h : ¬ z.userId = u) :
    counterOf f (z :: l) u = counterOf f l u := by
  simp [counterOf, List.find?_cons_of_neg, h]

theorem counterOf_map_bump {f : AepUserSummary → Nat} {d : Issue → Nat}
    (hb : ∀ s i, f (bumpSummary s i) = f s + d i)
    (tid : String) (i : Issue) (u : String) :
    ∀ acc : List AepUserSummary,
      counterOf f (acc.map (fun s => if s.userId == tid then bumpSummary s i else s)) u =
        counterOf f acc u +
          (if u = tid ∧ acc.any (fun s => s.userId == u) then d i else 0)
  | [] => by simp [counterOf]
  | y :: ys => by
    have hyid : (if y.userId == tid then bumpSummary y i else y).userId = y.userId := by
      split
      · exact bumpSummary_userId y i
      · rfl
    by_cases hy : y.userId = u
    · rw [List.map_cons, counterOf_cons_pos _ _ _ _ (hyid.trans hy),
        counterOf_cons_pos _ _ _ _ hy]
      by_cases ht : u = tid
      · have : (y.userId == tid) = true := by simp [hy, ht]
        simp [this, hb, ht, hy]
      · have : (y.userId == tid) = false := by simp [hy, ht]
        simp [this, ht]
    · rw [List.map_cons, counterOf_cons_neg _ _ _ _ (by rw [hyid]; exact hy),
        counterOf_cons_neg _ _ _ _ hy, counterOf_map_bump hb tid i u ys]
      have : (y.userId == u) = false := by simp [hy]
      simp [this]

theorem counterOf_append_single (f : AepUserSummary → Nat) (z : AepUserSummary) (u : String) :
    ∀ acc : List AepUserSummary,
      counterOf f (acc ++ [z]) u =
        if acc.any (fun s => s.userId == u) then counterOf f acc u
        else if z.userId = u then f z else 0
  | [] => by
    by_cases h : z.userId = u
    · simp [counterOf_cons_pos _ _ _ _ h, h]
    · simp [counterOf_cons_neg _ _ _ _ h, h, counterOf]
  | y :: ys => by
    by_cases hy : y.userId = u
    · rw [List.cons_append, counterOf_cons_pos _ _ _ _ hy]
      have : (y.userId == u) = true := by simp [hy]
      simp [this, counterOf_cons_pos _ _ _ _ hy]
    · rw [List.cons_append, counterOf_cons_neg _ _ _ _ hy,
        counterOf_append_single f z u ys]
      have : (y.userId == u) = false := by simp [hy]
      simp [this, counterOf_cons_neg _ _ _ _ hy]

theorem counterOf_processAssignee {f : AepUserSummary → Nat} {d : Issue → Nat}
    (hb : ∀ s i, f (bumpSummary s i) = f s + d i)
    (hfresh : ∀ n uid, f (freshSummary n uid) = 0)
    (acc : List AepUserSummary) (tid tname : String) (i : Issue) (u : String) :
    counterOf f (processAssignee acc tid tname i) u =
      counterOf f acc u + (if u = tid then d i else 0) := by
  unfold processAssignee
  split
  · rename_i hex
    rw [counterOf_map_bump hb]
    by_cases ht : u = tid
    · subst ht
      simp [hex]
    · simp [ht]
  · rename_i hnex
    rw [counterOf_append_single]
    by_cases ht : u = tid
    · subst ht
      rw [if_neg (by simpa using hnex)]
      rw [if_pos (by rw [bumpSummary_userId]; rfl)]
      have h0 : counterOf f acc u = 0 := by
        rw [Bool.not_eq_true, List.any_eq_false] at hnex
        cases hf : acc.find? (fun s => s.userId == u) with
        | none => simp [counterOf, hf]
        | some s =>
          exact absurd (List.find?_some hf) (by simpa using hnex s (List.mem_of_find?_eq_some hf))
      rw [h0, hb, hfresh]
      simp
    · by_cases ha : acc.any (fun s => s.userId == u)
      · simp [ha, ht]
      · rw [if_neg (by simpa using ha), if_neg (by rw [bumpSummary_userId]; simpa using fun h => ht h.symm)]
        have h0 : counterOf f acc u = 0 := by
          rw [Bool.not_eq_true, List.any_eq_false] at ha
          cases hf : acc.find? (fun s => s.userId == u) with
          | none => simp [counterOf, hf]
          | some s =>
            exact absurd (List.find?_some hf) (by simpa using ha s (List.mem_of_find?_eq_some hf))
        simp [h0, ht]

theorem counterOf_foldl_assignees {f : AepUserSummary → Nat} {d : Issue → Nat}
    (hb : ∀ s i, f (bumpSummary s i) = f s + d i)
    (hfresh : ∀ n uid, f (freshSummary n uid) = 0)
    (i : Issue) (u : String) :
    ∀ (l : List IssueAssignee) (acc : List AepUserSummary),
      counterOf f (l.foldl (fun acc a => processAssignee acc a.userId a.userName i) acc) u =
        counterOf f acc u + (l.filter (fun a => a.userId == u)).length * d i
  | [], acc => by simp
  | a :: l, acc => by
    rw [List.foldl_cons, counterOf_foldl_assignees hb hfresh i u l _,
      counterOf_processAssignee hb hfresh]
    by_cases h : u = a.userId
    · rw [if_pos h, List.filter_cons, if_pos (by simp [h]), List.length_cons]
      generalize (List.filter (fun x => x.userId == u) l).length = n
      generalize d i = m
      ring
    · have hne : (a.userId == u) = false := by simp [Ne.symm h]
      rw [if_neg h, List.filter_cons, if_neg (by simp [hne])]
      simp

theorem counterOf_processIssue {f : AepUserSummary → Nat} {d : Issue → Nat}
    (hb : ∀ s i, f (bumpSummary s i) = f s + d i)
    (hfresh : ∀ n uid, f (freshSummary n uid) = 0)
    (db : Db) (teamId : String) (acc : List AepUserSummary) (i : Issue) (u : String) :
    counterOf f (processIssue db teamId acc i) u =
      counterOf f acc u + creditsOf db u i * d i := by
  unfold processIssue creditsOf
  by_cases hlen : (issueAssigneesOf db i.id).length > 0
  · rw [if_pos hlen, if_pos hlen, counterOf_foldl_assignees hb hfresh]
  · rw [if_neg hlen, if_neg hlen]
    cases hai : i.assigneeId with
    | none => simp [hai]
    | some aid =>
      rw [counterOf_processAssignee hb hfresh]
      by_cases h : u = aid
      · rw [if_pos h]
        simp [h]
      · have h2 : ¬ aid = u := fun e => h e.symm
        rw [if_neg h]
        simp [h2]

theorem counterOf_foldl_issues {f : AepUserSummary → Nat} {d : Issue → Nat}
    (hb : ∀ s i, f (bumpSummary s i) = f s + d i)
    (hfresh : ∀ n uid, f (freshSummary n uid) = 0)
    (db : Db) (teamId : String) (u : String) :
    ∀ (issues : List Issue) (acc : List AepUserSummary),
      counterOf f (issues.foldl (processIssue db teamId) acc) u =
        counterOf f acc u + (issues.map (fun i => creditsOf db u i * d i)).sum
  | [], acc => by simp
  | i :: l, acc => by
    rw [List.foldl_cons, counterOf_foldl_issues hb hfresh db teamId u l _,
      counterOf_processIssue hb hfresh]
    simp [Nat.add_assoc]

/-! ### C7 infrastructure: the accumulator's rows have pairwise distinct userIds -/

theorem processAssignee_userIds (acc : List AepUserSummary) (tid tname : String) (i : Issue) :
    (processAssignee acc tid tname i).map (fun s => s.userId) =
      if acc.any (fun s => s.userId == tid) then acc.map (fun s => s.userId)
      else acc.map (fun s => s.userId) ++ [tid] := by
  unfold processAssignee
  split
  · rw [List.map_map]
    apply List.map_congr_left
    intro s _
    by_cases h : s.userId = tid
    · simp [h, bumpSummary_userId]
    · simp [h]
  · rw [List.map_append]
    simp [bumpSummary_userId, freshSummary]

theorem processAssignee_nodup {acc : List AepUserSummary}
    (h : (acc.map (fun s => s.userId)).Nodup) (tid tname : String) (i : Issue) :
    ((processAssignee acc tid tname i).map (fun s => s.userId)).Nodup := by
  rw [processAssignee_userIds]
  split
  · exact h
  · rename_i hnex
    rw [Bool.not_eq_true, List.any_eq_false] at hnex
    rw [List.nodup_append]
    refine ⟨h, List.nodup_singleton tid, ?_⟩
    intro x hx hx'
    rw [List.mem_singleton] at hx'
    subst hx'
    rcases List.mem_map.mp hx with ⟨s, hs, he⟩
    exact absurd (by simpa using he) (by simpa using hnex s hs)

theorem foldl_assignees_nodup (i : Issue) :
    ∀ (l : List IssueAssignee) {acc : List AepUserSummary},
      (acc.map (fun s => s.userId)).Nodup →
      (((l.foldl (fun acc a => processAssignee acc a.userId a.userName i) acc)).map
        (fun s => s.userId)).Nodup
  | [], _, h => h
  | a :: l, acc, h => by
    rw [List.foldl_cons]
    exact foldl_assignees_nodup i l (processAssignee_nodup h a.userId a.userName i)

theorem processIssue_nodup (db : Db) (teamId : String) {acc : List AepUserSummary}
    (h : (acc.map (fun s => s.userId)).Nodup) (i : Issue) :
    ((processIssue db teamId acc i).map (fun s => s.userId)).Nodup := by
  unfold processIssue
  by_cases hlen : (issueAssigneesOf db i.id).length > 0
  · rw [if_pos hlen]
    exact foldl_assignees_nodup i _ h
  · rw [if_neg hlen]
    cases i.assigneeId with
    | none => exact h
    | some aid => exact processAssignee_nodup h _ _ i

theorem foldl_issues_nodup (db : Db) (teamId : String) :
    ∀ (issues : List Issue) {acc : List AepUserSummary},
      (acc.map (fun s => s.userId)).Nodup →
      ((issues.foldl (processIssue db teamId) acc).map (fun s => s.userId)).Nodup
  | [], _, h => h
  | i :: l, acc, h => by
    rw [List.foldl_cons]
    exact foldl_issues_nodup db teamId l (processIssue_nodup db teamId h i)

theorem find?_eq_of_mem_nodup :
    ∀ {l : List AepUserSummary}, (l.map (fun s => s.userId)).Nodup →
      ∀ {s : AepUserSummary}, s ∈ l → l.find? (fun x => x.userId == s.userId) = some s
  | y :: ys, hn, s, hm => by
    rcases List.mem_cons.mp hm with rfl | hm
    · exact List.find?_cons_of_pos _ (by simp)
    · have hne : ¬ y.userId = s.userId := by
        intro he
        have : s.userId ∈ ys.map (fun x => x.userId) := List.mem_map.mpr ⟨s, hm, rfl⟩
        exact (List.nodup_cons.mp (by simpa using hn)).1 (he ▸ this)
      rw [List.find?_cons_of_neg _ (by simpa using hne)]
      exact find?_eq_of_mem_nodup (List.nodup_cons.mp (by simpa using hn)).2 hm

/-! ### C7 infrastructure: the final sort -/

theorem mem_insertByTotalDesc {x a : AepUserSummary} :
    ∀ {l : List AepUserSummary}, a ∈ insertByTotalDesc x l ↔ a = x ∨ a ∈ l
  | [] => by simp [insertByTotalDesc]
  | y :: ys => by
    simp only [insertByTotalDesc]
    split
    · simp [List.mem_cons]
    · rw [List.mem_cons, mem_insertByTotalDesc (l := ys), List.mem_cons]
      tauto

theorem mem_sortByTotalDesc {a : AepUserSummary} :
    ∀ {l : List AepUserSummary}, a ∈ sortByTotalDesc l ↔ a ∈ l
  | [] => Iff.rfl
  | y :: ys => by
    show a ∈ insertByTotalDesc y (sortByTotalDesc ys) ↔ _
    rw [mem_insertByTotalDesc, mem_sortByTotalDesc (l := ys), List.mem_cons]

theorem sorted_insertByTotalDesc {x : AepUserSummary} :
    ∀ {l : List AepUserSummary},
      l.Sorted (fun a b => b.totalClosed ≤ a.totalClosed) →
      (insertByTotalDesc x l).Sorted (fun a b => b.totalClosed ≤ a.totalClosed)
  | [], _ => by simp [insertByTotalDesc]
  | y :: ys, h => by
    simp only [insertByTotalDesc]
    split
    · rename_i hyx
      rw [List.sorted_cons]
      refine ⟨?_, h⟩
      intro b hb
      rcases List.mem_cons.mp hb with rfl | hb
      · exact hyx
      · exact le_trans ((List.sorted_cons.mp h).1 b hb) hyx
    · rename_i hyx
      rw [List.sorted_cons] at h ⊢
      refine ⟨?_, sorted_insertByTotalDesc h.2⟩
      intro b hb
      rcases mem_insertByTotalDesc.mp hb with rfl | hb
      · omega
      · exact h.1 b hb

theorem sorted_sortByTotalDesc :
    ∀ (l : List AepUserSummary),
      (sortByTotalDesc l).Sorted (fun a b => b.totalClosed ≤ a.totalClosed)
  | [] => List.sorted_nil
  | _ :: ys => sorted_insertByTotalDesc (sorted_sortByTotalDesc ys)

theorem aepEligibleIssues_nil (db : Db) (teamId : String) (p fu : Option String)
    (h : ((db.workflowStates.filter
        (fun s => s.teamId == teamId && s.type == StateType.completed)).map
        (fun s => s.id)).isEmpty) :
    aepEligibleIssues db teamId p fu = [] := by
  rw [List.isEmpty_iff] at h
  simp only [aepEligibleIssues]
  rw [h]
  simp

/-- C7 (amended): every row of the summary carries exactly the per-assignee
credit sums over the eligible issues — one credit per matching row of the
assignee table, with the legacy single `assigneeId` as fallback — with the
S/M/L buckets restricted to the matching difficulty; a user without a row
has credit sum zero; and the rows are sorted by `totalClosed` descending. -/
theorem C7_per_assignee_credit (db : Db) (teamId : String) (p fu : Option String) :
    (aepSummary db teamId p fu).Sorted (fun a b => b.totalClosed ≤ a.totalClosed) ∧
    (∀ s, s ∈ aepSummary db teamId p fu →
      s.totalClosed =
        ((aepEligibleIssues db teamId p fu).map (fun i => creditsOf db s.userId i)).sum ∧
      s.sClosed = ((aepEligibleIssues db teamId p fu).map
        (fun i => creditsOf db s.userId i * (if i.difficulty == some "S" then 1 else 0))).sum ∧
      s.mClosed = ((aepEligibleIssues db teamId p fu).map
        (fun i => creditsOf db s.userId i * (if i.difficulty == some "M" then 1 else 0))).sum ∧
      s.lClosed = ((aepEligibleIssues db teamId p fu).map
        (fun i => creditsOf db s.userId i * (if i.difficulty == some "L" then 1 else 0))).sum) ∧
    (∀ u : String, (∀ s, s ∈ aepSummary db teamId p fu → s.userId ≠ u) →
      ((aepEligibleIssues db teamId p fu).map (fun i => creditsOf db u i)).sum = 0) := by
  by_cases hempty : ((db.workflowStates.filter
      (fun s => s.teamId == teamId && s.type == StateType.completed)).map
      (fun s => s.id)).isEmpty
  · have he : aepSummary db teamId p fu = [] := by
      simp only [aepSummary]
      rw [if_pos hempty]
    have hn := aepEligibleIssues_nil db teamId p fu hempty
    rw [he, hn]
    refine ⟨List.sorted_nil, ?_, ?_⟩
    · intro s hs
      simp at hs
    · intro u _
      simp
  · have hsagg : aepSummary db teamId p fu =
        sortByTotalDesc ((aepEligibleIssues db teamId p fu).foldl (processIssue db teamId) []) := by
      simp only [aepSummary]
      rw [if_neg hempty]
    have hnd : ((((aepEligibleIssues db teamId p fu).foldl (processIssue db teamId) [])).map
        (fun s => s.userId)).Nodup := foldl_issues_nodup db teamId _ (by simp)
    rw [hsagg]
    refine ⟨sorted_sortByTotalDesc _, ?_, ?_⟩
    · intro s hsm
      have hm := mem_sortByTotalDesc.mp hsm
      have hfind := find?_eq_of_mem_nodup hnd hm
      refine ⟨?_, ?_, ?_, ?_⟩
      · have h1 := @counterOf_foldl_issues (fun x => x.totalClosed) (fun _ => 1)
          (fun a b => (bumpSummary_counters a b).1) (fun n uid => rfl) db teamId s.userId
          (aepEligibleIssues db teamId p fu) []
        simp only [counterOf, hfind, List.find?_nil] at h1
        simpa using h1
      · have h1 := @counterOf_foldl_issues (fun x => x.sClosed)
          (fun i => if i.difficulty == some "S" then 1 else 0)
          (fun a b => (bumpSummary_counters a b).2.1) (fun n uid => rfl) db teamId s.userId
          (aepEligibleIssues db teamId p fu) []
        simp only [counterOf, hfind, List.find?_nil] at h1
        simpa using h1
      · have h1 := @counterOf_foldl_issues (fun x => x.mClosed)
          (fun i => if i.difficulty == some "M" then 1 else 0)
          (fun a b => (bumpSummary_counters a b).2.2.1) (fun n uid => rfl) db teamId s.userId
          (aepEligibleIssues db teamId p fu) []
        simp only [counterOf, hfind, List.find?_nil] at h1
        simpa using h1
      · have h1 := @counterOf_foldl_issues (fun x => x.lClosed)
          (fun i => if i.difficulty == some "L" then 1 else 0)
          (fun a b => (bumpSummary_counters a b).2.2.2) (fun n uid => rfl) db teamId s.userId
          (aepEligibleIssues db teamId p fu) []
        simp only [counterOf, hfind, List.find?_nil] at h1
        simpa using h1
    · intro u hu
      have hnone : (((aepEligibleIssues db teamId p fu).foldl (processIssue db teamId) [])).find?
          (fun x => x.userId == u) = none := by
        rw [List.find?_eq_none]
        intro x hx
        simpa using hu x (mem_sortByTotalDesc.mpr hx)
      have h1 := @counterOf_foldl_issues (fun x => x.totalClosed) (fun _ => 1)
          (fun a b => (bumpSummary_counters a b).1) (fun n uid => rfl) db teamId u
          (aepEligibleIssues db teamId p fu) []
      simp only [counterOf, hnone, List.find?_nil] at h1
      simpa using h1.symm

/-- Witness for C7 (amended) at `fixDbAep`: the row for the co-assignee `U2`
is in the summary, its `totalClosed` equals the credit sum for `U2` over the
eligible issues (namely 1), and the output is sorted. -/
theorem C7_per_assignee_credit_witness :
    ({ userName := "Bob", userId := "U2", sClosed := 1, mClosed := 0, lClosed := 0,
       totalClosed := 1, onTimeClosed := 1, delayedClosed := 0 } : AepUserSummary) ∈
        aepSummary fixDbAep "T" none none ∧
    (1 : Nat) =
      ((aepEligibleIssues fixDbAep "T" none none).map (fun i => creditsOf fixDbAep "U2" i)).sum ∧
    (aepSummary fixDbAep "T" none none).Sorted (fun a b => b.totalClosed ≤ a.totalClosed) := by
  have T := C7_per_assignee_credit fixDbAep "T" none none
  have hm : (⟨"Bob", "U2", 1, 0, 0, 1, 1, 0⟩ : AepUserSummary) ∈
      aepSummary fixDbAep "T" none none := by decide
  exact ⟨hm, (T.2.1 _ hm).1, T.1⟩

/-! ### C8 infrastructure: chains in the parent-reference graph -/

theorem filter_len_mono {α : Type} (p q : α → Bool) (hpq : ∀ a, q a = true → p a = true) :
    ∀ l : List α, (l.filter q).length ≤ (l.filter p).length
  | [] => Nat.le_refl 0
  | a :: l => by
    rw [List.filter_cons, List.filter_cons]
    by_cases hq : q a = true
    · rw [if_pos hq, if_pos (hpq a hq)]
      simpa using filter_len_mono p q hpq l
    · rw [if_neg hq]
      by_cases hp : p a = true
      · rw [if_pos hp]
        exact Nat.le_succ_of_le (filter_len_mono p q hpq l)
      · rw [if_neg hp]
        exact filter_len_mono p q hpq l

theorem filter_len_lt {α : Type} (p q : α → Bool) (hpq : ∀ a, q a = true → p a = true)
    (x : α) (hp : p x = true) (hq : q x = false) :
    ∀ l : List α, x ∈ l → (l.filter q).length < (l.filter p).length
  | a :: l, hm => by
    rw [List.filter_cons, List.filter_cons]
    rcases List.mem_cons.mp hm with rfl | hm
    · rw [if_pos hp, if_neg (by simp [hq])]
      exact Nat.lt_succ_of_le (filter_len_mono p q hpq l)
    · by_cases hqa : q a = true
      · rw [if_pos hqa, if_pos (hpq a hqa)]
        simpa using filter_len_lt p q hpq x hp hq l hm
      · rw [if_neg hqa]
        by_cases hpa : p a = true
        · rw [if_pos hpa]
          exact Nat.lt_succ_of_lt (filter_len_lt p q hpq x hp hq l hm)
        · rw [if_neg hpa]
          exact filter_len_lt p q hpq x hp hq l hm

theorem pchain_none (l : List (String × Option String)) (f : Nat) : pchain l f none = [] := by
  cases f <;> rfl

theorem plookup_map_pair (x : String) :
    ∀ l : List Issue,
      plookup (l.map (fun i => (i.id, i.parentId))) x =
        (match l.find? (fun i => i.id == x) with
          | some i => i.parentId
          | none => none)
  | [] => rfl
  | i :: l => by
    by_cases h : (i.id == x) = true
    · have h1 : List.find? (fun e : String × Option String => e.1 == x)
          ((i.id, i.parentId) :: l.map (fun i => (i.id, i.parentId))) =
            some (i.id, i.parentId) :=
        List.find?_cons_of_pos _ h
      have h2 : List.find? (fun j : Issue => j.id == x) (i :: l) = some i :=
        List.find?_cons_of_pos _ h
      simp [plookup, h1, h2]
    · have h1 : List.find? (fun e : String × Option String => e.1 == x)
          ((i.id, i.parentId) :: l.map (fun i => (i.id, i.parentId))) =
          List.find? (fun e => e.1 == x) (l.map (fun i => (i.id, i.parentId))) :=
        List.find?_cons_of_neg _ h
      have h2 : List.find? (fun j : Issue => j.id == x) (i :: l) =
          List.find? (fun j => j.id == x) l := List.find?_cons_of_neg _ h
      have ih := plookup_map_pair x l
      simp only [plookup] at ih ⊢
      rw [List.map_cons, h1, h2]
      exact ih

theorem plookup_parentMap (db : Db) (x : String) :
    plookup (parentMap db) x =
      (match db.issues.find? (fun i => i.id == x) with
        | some i => i.parentId
        | none => none) := plookup_map_pair x db.issues

theorem find?_drop_team {teamId : String} (x : String) :
    ∀ {l : List Issue}, (∀ i ∈ l, i.teamId = teamId) →
      l.find? (fun i => i.id == x && i.teamId == teamId) = l.find? (fun i => i.id == x)
  | [], _ => rfl
  | i :: l, hst => by
    have ht : (i.teamId == teamId) = true := by simp [hst i (List.mem_cons_self i l)]
    by_cases h : (i.id == x) = true
    · have e1 : List.find? (fun i => i.id == x && i.teamId == teamId) (i :: l) = some i :=
        List.find?_cons_of_pos _ (by simp [h, ht])
      have e2 : List.find? (fun i : Issue => i.id == x) (i :: l) = some i :=
        List.find?_cons_of_pos _ h
      rw [e1, e2]
    · have e1 : List.find? (fun i => i.id == x && i.teamId == teamId) (i :: l) =
          List.find? (fun i => i.id == x && i.teamId == teamId) l :=
        List.find?_cons_of_neg _ (by simp [h])
      have e2 : List.find? (fun i : Issue => i.id == x) (i :: l) =
          List.find? (fun i : Issue => i.id == x) l := List.find?_cons_of_neg _ h
      rw [e1, e2]
      exact find?_drop_team x (fun j hj => hst j (List.mem_cons_of_mem i hj))

theorem pchain_mono (l : List (String × Option String)) :
    ∀ (f : Nat) {g : Nat} (s : Option String), f ≤ g →
      ∀ {y : String}, y ∈ pchain l f s → y ∈ pchain l g s
  | 0, _, s, _, y, hy => by rw [show pchain l 0 s = [] by cases s <;> rfl] at hy; cases hy
  | _ + 1, _, none, _, y, hy => by rw [pchain_none] at hy; cases hy
  | f + 1, g, some x, hfg, y, hy => by
    obtain ⟨g', rfl⟩ : ∃ g', g = g' + 1 := ⟨g - 1, by omega⟩
    simp only [pchain, List.mem_cons] at hy ⊢
    rcases hy with rfl | hy
    · exact Or.inl rfl
    · exact Or.inr (pchain_mono l f (plookup l x) (by omega) hy)

theorem pchain_trans (l : List (String × Option String)) {t u : String} :
    ∀ (f : Nat) {g : Nat} (s : Option String), t ∈ pchain l f s →
      u ∈ pchain l g (plookup l t) → u ∈ pchain l (f + g) s
  | 0, _, s, ht, _ => by rw [show pchain l 0 s = [] by cases s <;> rfl] at ht; cases ht
  | _ + 1, _, none, ht, _ => by rw [pchain_none] at ht; cases ht
  | f + 1, g, some x, ht, hu => by
    simp only [pchain, List.mem_cons] at ht
    rw [Nat.add_right_comm]
    simp only [pchain, List.mem_cons]
    rcases ht with rfl | ht
    · exact Or.inr (pchain_mono l g (plookup l t) (by omega) hu)
    · exact Or.inr (pchain_trans l f (plookup l x) ht hu)

theorem find?_map_keyinv {α : Type} (g : α → α) (p : α → Bool) (hg : ∀ a, p (g a) = p a) :
    ∀ l : List α, (l.map g).find? p = (l.find? p).map g
  | [] => rfl
  | a :: l => by
    by_cases h : p a = true
    · rw [List.map_cons, List.find?_cons_of_pos _ (by rw [hg]; exact h),
        List.find?_cons_of_pos _ h]
      rfl
    · rw [List.map_cons, List.find?_cons_of_neg _ (by rw [hg]; exact h),
        List.find?_cons_of_neg _ h]
      exact find?_map_keyinv g p hg l

theorem find?_setParent (x : String) (v : Option String) (y : String)
    (l : List (String × Option String)) :
    (setParent l x v).find? (fun a => a.1 == y) =
      (l.find? (fun a => a.1 == y)).map (fun e => if e.1 == x then (e.1, v) else e) :=
  find?_map_keyinv _ _ (fun a => by split <;> rfl) l

theorem plookup_setParent_ne (l : List (String × Option String)) (x y : String)
    (v : Option String) (h : ¬ y = x) :
    plookup (setParent l x v) y = plookup l y := by
  simp only [plookup, find?_setParent]
  cases hf : l.find? (fun a => a.1 == y) with
  | none => rfl
  | some e =>
    have hey : e.1 = y := by simpa using List.find?_some hf
    simp [hey, h]

theorem plookup_setParent_self (l : List (String × Option String)) (x : String)
    (v : Option String) (hx : ∃ e ∈ l, e.1 = x) :
    plookup (setParent l x v) x = v := by
  simp only [plookup, find?_setParent]
  cases hf : l.find? (fun a => a.1 == x) with
  | none =>
    rw [List.find?_eq_none] at hf
    obtain ⟨e, he, hex⟩ := hx
    exact absurd (show (e.1 == x) = true by simp [hex]) (hf e he)
  | some e =>
    have hex : e.1 = x := by simpa using List.find?_some hf
    simp [hex]

theorem setParent_not_key (l : List (String × Option String)) (x : String) (v : Option String)
    (h : ∀ e ∈ l, e.1 ≠ x) : setParent l x v = l := by
  unfold setParent
  conv_rhs => rw [← List.map_id l]
  apply List.map_congr_left
  intro e he
  simp [h e he]

theorem pchain_setParent_sub (l : List (String × Option String)) (x : String)
    (v : Option String) {t : String} :
    ∀ (f : Nat) (s : Option String), t ∈ pchain (setParent l x v) f s →
      t ∈ pchain l f s ∨ x ∈ pchain l f s
  | 0, s, ht => by rw [show pchain (setParent l x v) 0 s = [] by cases s <;> rfl] at ht; cases ht
  | _ + 1, none, ht => by rw [pchain_none] at ht; cases ht
  | f + 1, some a, ht => by
    simp only [pchain, List.mem_cons] at ht ⊢
    rcases ht with rfl | ht
    · exact Or.inl (Or.inl rfl)
    · by_cases hax : a = x
      · exact Or.inr (Or.inl hax.symm)
      · rw [plookup_setParent_ne l x a v hax] at ht
        rcases pchain_setParent_sub l x v f (plookup l a) ht with h | h
        · exact Or.inl (Or.inr h)
        · exact Or.inr (Or.inr h)

theorem pchain_setParent_split (l : List (String × Option String)) (x p : String)
    (hkey : plookup (setParent l x (some p)) x = some p) {y : String} :
    ∀ (f : Nat) (s : Option String), y ∈ pchain (setParent l x (some p)) f s →
      y ∈ pchain l f s ∨ y ∈ pchain l f (some p)
  | 0, s, hy => by
    rw [show pchain (setParent l x (some p)) 0 s = [] by cases s <;> rfl] at hy; cases hy
  | _ + 1, none, hy => by rw [pchain_none] at hy; cases hy
  | f + 1, some a, hy => by
    simp only [pchain, List.mem_cons] at hy
    rcases hy with rfl | hy
    · exact Or.inl (by simp [pchain])
    · by_cases hax : a = x
      · rw [hax, hkey] at hy
        rcases pchain_setParent_split l x p hkey f (some p) hy with h | h
        · exact Or.inr (pchain_mono l f (some p) (Nat.le_succ f) h)
        · exact Or.inr (pchain_mono l f (some p) (Nat.le_succ f) h)
      · rw [plookup_setParent_ne l x a (some p) hax] at hy
        rcases pchain_setParent_split l x p hkey f (plookup l a) hy with h | h
        · exact Or.inl (by simp only [pchain, List.mem_cons]; exact Or.inr h)
        · exact Or.inr (pchain_mono l f (some p) (Nat.le_succ f) h)

theorem pchain_setParent_none (l : List (String × Option String)) (x : String)
    (hkey : plookup (setParent l x none) x = none) {y : String} :
    ∀ (f : Nat) (s : Option String), y ∈ pchain (setParent l x none) f s → y ∈ pchain l f s
  | 0, s, hy => by
    rw [show pchain (setParent l x none) 0 s = [] by cases s <;> rfl] at hy; cases hy
  | _ + 1, none, hy => by rw [pchain_none] at hy; cases hy
  | f + 1, some a, hy => by
    simp only [pchain, List.mem_cons] at hy ⊢
    rcases hy with rfl | hy
    · exact Or.inl rfl
    · by_cases hax : a = x
      · rw [hax, hkey, pchain_none] at hy
        cases hy
      · rw [plookup_setParent_ne l x a none hax] at hy
        exact Or.inr (pchain_setParent_none l x hkey f (plookup l a) hy)

theorem acyclic_setParent_some {l : List (String × Option String)} {x p : String}
    (hkey : plookup (setParent l x (some p)) x = some p)
    (h1 : AcyclicPM l)
    (h2 : ∀ f, x ∉ pchain l f (some p)) :
    AcyclicPM (setParent l x (some p)) := by
  intro y f hy
  by_cases hyx : y = x
  · subst hyx
    rw [hkey] at hy
    rcases pchain_setParent_sub l y (some p) f (some p) hy with h | h
    · exact h2 f h
    · exact h2 f h
  · rw [plookup_setParent_ne l x y (some p) hyx] at hy
    rcases pchain_setParent_sub l x (some p) f (plookup l y) hy with hcase | hx
    · exact h1 y f hcase
    · rcases pchain_setParent_split l x p hkey f (plookup l y) hy with h | hy2
      · exact h1 y f h
      · exact h2 (f + f) (pchain_trans l f (some p) hy2 hx)

theorem acyclic_setParent_none {l : List (String × Option String)} {x : String}
    (hkey : plookup (setParent l x none) x = none)
    (h1 : AcyclicPM l) : AcyclicPM (setParent l x none) := by
  intro y f hy
  by_cases hyx : y = x
  · subst hyx
    rw [hkey, pchain_none] at hy
    cases hy
  · rw [plookup_setParent_ne l x y none hyx] at hy
    exact h1 y f (pchain_setParent_none l x hkey f (plookup l y) hy)

theorem setParent_self_eq {db : Db} {x : String} {cur : Issue}
    (hnd : (db.issues.map (fun i => i.id)).Nodup)
    (hmem : cur ∈ db.issues) (hid : cur.id = x) :
    setParent (parentMap db) x cur.parentId = parentMap db := by
  unfold setParent parentMap
  rw [List.map_map]
  apply List.map_congr_left
  intro j hj
  by_cases h : (j.id == x) = true
  · have hjx : j.id = x := by simpa using h
    have hji : j = cur := by
      have := List.inj_on_of_nodup_map hnd
      exact this hj hmem (by rw [hjx, hid])
    simp [Function.comp, h, hji]
  · simp [Function.comp, h]

theorem ancestorWalk_none (db : Db) (teamId : String) (fuel : Nat) (visited : List String) :
    ancestorWalk db teamId fuel visited none = .ok () := by
  cases fuel <;> rfl

theorem ancestorWalk_ok_not_visited {db : Db} {teamId : String}
    (hst : ∀ i ∈ db.issues, i.teamId = teamId) :
    ∀ (f fuel : Nat) (visited : List String) (s : Option String),
      ancestorWalk db teamId fuel visited s = .ok () →
      ∀ y ∈ pchain (parentMap db) f s, y ∉ visited
  | 0, _, _, s, _, y, hy => by
    rw [show pchain (parentMap db) 0 s = [] by cases s <;> rfl] at hy; cases hy
  | _ + 1, _, _, none, _, y, hy => by rw [pchain_none] at hy; cases hy
  | f + 1, fuel, visited, some x, hw, y, hy => by
    cases fuel with
    | zero => exact absurd hw (by simp [ancestorWalk])
    | succ fuel =>
      simp only [ancestorWalk] at hw
      by_cases hvis : (visited.contains x) = true
      · rw [if_pos hvis] at hw
        exact absurd hw (by simp)
      · rw [if_neg hvis] at hw
        simp only [pchain, List.mem_cons] at hy
        cases hf : db.issues.find? (fun i => i.id == x && i.teamId == teamId) with
        | none =>
          have hfx : db.issues.find? (fun i => i.id == x) = none := by
            rw [← find?_drop_team x hst]; exact hf
          have hpl : plookup (parentMap db) x = none := by rw [plookup_parentMap, hfx]
          rcases hy with rfl | hy
          · simpa using hvis
          · rw [hpl, pchain_none] at hy
            cases hy
        | some anc =>
          rw [hf] at hw
          have hfx : db.issues.find? (fun i => i.id == x) = some anc := by
            rw [← find?_drop_team x hst]; exact hf
          have hpl : plookup (parentMap db) x = anc.parentId := by rw [plookup_parentMap, hfx]
          rcases hy with rfl | hy
          · simpa using hvis
          · rw [hpl] at hy
            have hnv := ancestorWalk_ok_not_visited hst f fuel (x :: visited) anc.parentId hw y hy
            intro hcon
            exact hnv (List.mem_cons_of_mem x hcon)

theorem ancestorWalk_hits_visited {db : Db} {teamId : String}
    (hst : ∀ i ∈ db.issues, i.teamId = teamId) :
    ∀ (f fuel : Nat) (visited : List String) (s : Option String),
      (∃ y ∈ pchain (parentMap db) f s, y ∈ visited) →
      ancestorWalk db teamId fuel visited s = .error .circularAncestor ∨
      ancestorWalk db teamId fuel visited s = .error .fuelExhausted
  | 0, _, _, s, ⟨y, hy, _⟩ => by
    rw [show pchain (parentMap db) 0 s = [] by cases s <;> rfl] at hy; cases hy
  | _ + 1, _, _, none, ⟨y, hy, _⟩ => by rw [pchain_none] at hy; cases hy
  | f + 1, fuel, visited, some x, ⟨y, hy, hyv⟩ => by
    cases fuel with
    | zero => exact Or.inr rfl
    | succ fuel =>
      by_cases hvis : (visited.contains x) = true
      · refine Or.inl ?_
        simp only [ancestorWalk]
        rw [if_pos hvis]
      · simp only [pchain, List.mem_cons] at hy
        rcases hy with rfl | hy
        · exact absurd hyv (by simpa using hvis)
        · cases hf : db.issues.find? (fun i => i.id == x && i.teamId == teamId) with
          | none =>
            have hfx : db.issues.find? (fun i => i.id == x) = none := by
              rw [← find?_drop_team x hst]; exact hf
            have hpl : plookup (parentMap db) x = none := by rw [plookup_parentMap, hfx]
            rw [hpl, pchain_none] at hy
            cases hy
          | some anc =>
            have hfx : db.issues.find? (fun i => i.id == x) = some anc := by
              rw [← find?_drop_team x hst]; exact hf
            have hpl : plookup (parentMap db) x = anc.parentId := by rw [plookup_parentMap, hfx]
            rw [hpl] at hy
            have hstep : ancestorWalk db teamId (fuel + 1) visited (some x) =
                ancestorWalk db teamId fuel (x :: visited) anc.parentId := by
              simp only [ancestorWalk]
              rw [if_neg hvis, hf]
            rw [hstep]
            exact ancestorWalk_hits_visited hst f fuel (x :: visited) anc.parentId
              ⟨y, hy, List.mem_cons_of_mem x hyv⟩

theorem ancestorWalk_no_fuelExhaust {db : Db} {teamId : String} :
    ∀ (fuel : Nat) (visited : List String) (s : Option String),
      (db.issues.filter (fun i => !(visited.contains i.id))).length + 1 ≤ fuel →
      ancestorWalk db teamId fuel visited s ≠ .error .fuelExhausted
  | fuel, visited, none, _ => by rw [ancestorWalk_none]; simp
  | 0, visited, some x, hfuel => by omega
  | fuel + 1, visited, some x, hfuel => by
    simp only [ancestorWalk]
    by_cases hvis : (visited.contains x) = true
    · rw [if_pos hvis]
      simp
    · rw [if_neg hvis]
      cases hf : db.issues.find? (fun i => i.id == x && i.teamId == teamId) with
      | none => simp
      | some anc =>
        have hmem := List.mem_of_find?_eq_some hf
        have hpred := List.find?_some hf
        have hancid : anc.id = x := by
          simp only [Bool.and_eq_true, beq_iff_eq] at hpred
          exact hpred.1
        have hxnew : (!(visited.contains anc.id)) = true := by
          rw [hancid]
          simpa using hvis
        have hxold : (!((x :: visited).contains anc.id)) = false := by
          rw [hancid]
          simp
        have hlt := filter_len_lt (fun i => !(visited.contains i.id))
          (fun i => !((x :: visited).contains i.id))
          (fun a ha => by
            simp at ha ⊢
            exact ha.2)
          anc hxnew hxold db.issues hmem
        exact ancestorWalk_no_fuelExhaust fuel (x :: visited) anc.parentId (by omega)

theorem ancestorWalk_congr {db db' : Db} (teamId : String) (h : db'.issues = db.issues) :
    ∀ (fuel : Nat) (visited : List String) (s : Option String),
      ancestorWalk db' teamId fuel visited s = ancestorWalk db teamId fuel visited s
  | fuel, visited, none => by rw [ancestorWalk_none, ancestorWalk_none]
  | 0, visited, some c => rfl
  | fuel + 1, visited, some c => by
    simp only [ancestorWalk, h]
    split
    · rfl
    · split
      · exact ancestorWalk_congr teamId h fuel _ _
      · rfl

theorem parentMap_applyUpdate {db db3 : Db} {teamId issueId : String} {patch : UpdatePatch}
    {now : Nat} {upd : Issue}
    (hst : ∀ i ∈ db.issues, i.teamId = teamId)
    (h : applyUpdate db teamId issueId patch now = some (db3, upd)) :
    parentMap db3 = setParent (parentMap db) issueId upd.parentId := by
  obtain ⟨i, hfind, hupd, hissues, _⟩ := applyUpdate_some h
  have hiid : i.id = issueId := by
    have hpred := List.find?_some hfind
    simp only [Bool.and_eq_true, beq_iff_eq] at hpred
    exact hpred.1
  have hid : upd.id = issueId := by
    rw [hupd]
    simpa [applyPatch] using hiid
  rw [parentMap, hissues, setParent, parentMap, List.map_map, List.map_map]
  apply List.map_congr_left
  intro j hj
  by_cases hjid : (j.id == issueId) = true
  · have hteam : (j.teamId == teamId) = true := by simp [hst j hj]
    have hjeq : j.id = issueId := by simpa using hjid
    simp [Function.comp, hjid, hteam, hjeq, hid]
  · simp [Function.comp, hjid]

theorem updateIssue_acyclic {db db' : Db} {teamId issueId : String} {d : UpdateIssueData}
    {u un : Option String} {now : Nat} {upd : Issue}
    (hst : ∀ i ∈ db.issues, i.teamId = teamId)
    (hnd : (db.issues.map (fun i => i.id)).Nodup)
    (hac : AcyclicPM (parentMap db))
    (h : updateIssue db teamId issueId d u un now = .ok db' upd) :
    AcyclicPM (parentMap db') := by
  obtain ⟨cur, patch, db3, hcur, hlock, ⟨db1, hlab, hbp, hap⟩, hiss4, _, _, _, _⟩ :=
    updateIssue_ok_inv h
  have htab1 := labelsPhase_ok_tables hlab
  have htab2 := assigneesPhase_tables db1 teamId issueId (renumberData db teamId cur d)
  have hiss2 : (assigneesPhase db1 teamId issueId (renumberData db teamId cur d)).1.issues
      = db.issues := by rw [htab2.1, htab1.1]
  have hst2 : ∀ i ∈ (assigneesPhase db1 teamId issueId (renumberData db teamId cur d)).1.issues,
      i.teamId = teamId := by rw [hiss2]; exact hst
  have hpm2 : parentMap (assigneesPhase db1 teamId issueId (renumberData db teamId cur d)).1
      = parentMap db := by rw [parentMap, hiss2, parentMap]
  have hpm3 : parentMap db3 = setParent (parentMap db) issueId upd.parentId := by
    have hmm := parentMap_applyUpdate hst2 hap
    rw [hpm2] at hmm
    exact hmm
  have hpm4 : parentMap db' = parentMap db3 := by rw [parentMap, hiss4, parentMap]
  rw [hpm4, hpm3]
  have hcurmem : cur ∈ db.issues := List.mem_of_find?_eq_some hcur
  have hcurid : cur.id = issueId := by simpa using List.find?_some hcur
  have hkeyex : ∃ e ∈ parentMap db, e.1 = issueId :=
    ⟨(cur.id, cur.parentId), List.mem_map.mpr ⟨cur, hcurmem, rfl⟩, hcurid⟩
  obtain ⟨i, hfindi, hupd, _⟩ := applyUpdate_some hap
  have hieq : i = cur := by
    rw [hiss2, find?_drop_team issueId hst, hcur] at hfindi
    injection hfindi with hfi
    exact hfi.symm
  obtain ⟨p1, hp1, p2, hp2, hpeq⟩ := buildPatch_ok_inv hbp
  have hpp : patch.parentId = p1.parentId := by
    have hr := (restFieldsPatch_pres
      (assigneesPhase db1 teamId issueId (renumberData db teamId cur d)).2 p2).1
    rw [hpeq, hr]
    cases hws : (assigneesPhase db1 teamId issueId
        (renumberData db teamId cur d)).2.workflowStateId with
    | none =>
      rw [workflowPhase_none hws] at hp2
      injection hp2 with hsp
      rw [← hsp, (simpleFieldsPatch_pres _ p1).1]
    | some sid =>
      rw [(workflowPhase_some_ok hws hp2).2.1, (simpleFieldsPatch_pres _ p1).1]
  rcases parentPhase_ok_parent hp1 with ⟨hdn, hpe⟩ | hpe |
    ⟨pv, p, parentIssue, hd2p, hjs, hfindP, hnotown, hwalkne, hdesc, hpe⟩
  · have hp1none : p1.parentId = none := by rw [hpe]
    have hupdp : upd.parentId = cur.parentId := by
      rw [hupd, hieq]
      simp [applyPatch, hpp, hp1none]
    rw [hupdp, setParent_self_eq hnd hcurmem hcurid]
    exact hac
  · have hupdp : upd.parentId = none := by
      rw [hupd]
      simp [applyPatch, hpp, hpe]
    rw [hupdp]
    exact acyclic_setParent_none (plookup_setParent_self _ _ _ hkeyex) hac
  · rw [hiss2] at hfindP
    have hupdp : upd.parentId = some p := by
      rw [hupd]
      simp [applyPatch, hpp, hpe]
    have hwdb : ∀ e, ancestorWalk db teamId (db.issues.length + 2) [issueId]
        parentIssue.parentId ≠ .error e := by
      have hlen : (assigneesPhase db1 teamId issueId
          (renumberData db teamId cur d)).1.issues.length = db.issues.length := by rw [hiss2]
      intro e he
      apply hwalkne e
      rw [hlen, ancestorWalk_congr teamId hiss2]
      exact he
    have hwok : ancestorWalk db teamId (db.issues.length + 2) [issueId]
        parentIssue.parentId = .ok () := by
      cases hw : ancestorWalk db teamId (db.issues.length + 2) [issueId]
          parentIssue.parentId with
      | ok v => cases v; rfl
      | error e => exact absurd hw (hwdb e)
    have h2' : ∀ f, issueId ∉ pchain (parentMap db) f parentIssue.parentId := by
      intro f hmem
      exact ancestorWalk_ok_not_visited hst f (db.issues.length + 2) [issueId]
        parentIssue.parentId hwok issueId hmem (by simp)
    have hpid : parentIssue.id = p := by
      have hps := List.find?_some hfindP
      simp only [Bool.and_eq_true, beq_iff_eq] at hps
      exact hps.1
    have hpx : ¬ p = issueId := fun he => by simp [hpid, he] at hnotown
    have hfxp : db.issues.find? (fun i => i.id == p) = some parentIssue := by
      rw [← find?_drop_team p hst]
      exact hfindP
    have hplp : plookup (parentMap db) p = parentIssue.parentId := by
      rw [plookup_parentMap, hfxp]
    have h2 : ∀ f, issueId ∉ pchain (parentMap db) f (some p) := by
      intro f hmem
      cases f with
      | zero =>
        rw [show pchain (parentMap db) 0 (some p) = [] from rfl] at hmem
        cases hmem
      | succ f =>
        simp only [pchain, List.mem_cons] at hmem
        rcases hmem with he | hmem
        · exact hpx he.symm
        · rw [hplp] at hmem
          exact h2' f hmem
    rw [hupdp]
    exact acyclic_setParent_some (plookup_setParent_self _ _ _ hkeyex) hac h2

/-- C8: on a single-team store with distinct issue ids whose parent relation
is acyclic, the `parentId` section of `updateIssue` rejects (a) a parent
that is the issue itself with `ownParent`, (b) a parent whose ancestor chain
contains the issue with `circularAncestor`, (c) a parent found in the
issue's descendant subtree with `circularDescendant`; and (d) the parent
relation of the store is still acyclic after every accepted `updateIssue`. -/
theorem C8_parent_integrity (db : Db) (teamId issueId : String) (d : UpdateIssueData)
    (u un : Option String) (now : Nat) (patch : UpdatePatch)
    (hst : ∀ i ∈ db.issues, i.teamId = teamId)
    (hnd : (db.issues.map (fun i => i.id)).Nodup)
    (hac : AcyclicPM (parentMap db)) :
    (∀ pv p parentIssue, d.parentId = some pv → jsTruthyStr pv = some p →
      db.issues.find? (fun i => i.id == p && i.teamId == teamId) = some parentIssue →
      p = issueId →
      parentPhase db teamId issueId d patch = .error .ownParent) ∧
    (∀ pv p parentIssue (f : Nat), d.parentId = some pv → jsTruthyStr pv = some p →
      db.issues.find? (fun i => i.id == p && i.teamId == teamId) = some parentIssue →
      ¬ p = issueId →
      issueId ∈ pchain (parentMap db) f parentIssue.parentId →
      parentPhase db teamId issueId d patch = .error .circularAncestor) ∧
    (∀ pv p parentIssue, d.parentId = some pv → jsTruthyStr pv = some p →
      db.issues.find? (fun i => i.id == p && i.teamId == teamId) = some parentIssue →
      ¬ p = issueId →
      ancestorWalk db teamId (db.issues.length + 2) [issueId] parentIssue.parentId = .ok () →
      checkDescendants db teamId p (db.issues.length + 2) issueId = .ok true →
      parentPhase db teamId issueId d patch = .error .circularDescendant) ∧
    (∀ db' upd, updateIssue db teamId issueId d u un now = .ok db' upd →
      AcyclicPM (parentMap db')) := by
  refine ⟨?_, ?_, ?_, ?_⟩
  · intro pv p parentIssue hpd hjs hfindp hpeq
    have hpid : parentIssue.id = p := by
      have hps := List.find?_some hfindp
      simp only [Bool.and_eq_true, beq_iff_eq] at hps
      exact hps.1
    have hown : (parentIssue.id == issueId) = true := by simp [hpid, hpeq]
    simp only [parentPhase, hpd, hjs, hfindp]
    rw [if_pos hown]
  · intro pv p parentIssue f hpd hjs hfindp hpx hmem
    have hpid : parentIssue.id = p := by
      have hps := List.find?_some hfindp
      simp only [Bool.and_eq_true, beq_iff_eq] at hps
      exact hps.1
    have hown : (parentIssue.id == issueId) = false := by simp [hpid, hpx]
    have hnofe := @ancestorWalk_no_fuelExhaust db teamId
      (db.issues.length + 2) [issueId] parentIssue.parentId
      (by
        have hle : (db.issues.filter
            (fun i => !((([issueId] : List String)).contains i.id))).length ≤
            db.issues.length := List.length_filter_le _ _
        omega)
    rcases ancestorWalk_hits_visited hst f (db.issues.length + 2) [issueId]
        parentIssue.parentId ⟨issueId, hmem, by simp⟩ with hcirc | hfe
    · simp only [parentPhase, hpd, hjs, hfindp]
      rw [if_neg (by simp [hown]), hcirc]
    · exact absurd hfe hnofe
  · intro pv p parentIssue hpd hjs hfindp hpx hwalk hdesc
    have hpid : parentIssue.id = p := by
      have hps := List.find?_some hfindp
      simp only [Bool.and_eq_true, beq_iff_eq] at hps
      exact hps.1
    have hown : (parentIssue.id == issueId) = false := by simp [hpid, hpx]
    simp only [parentPhase, hpd, hjs, hfindp]
    rw [if_neg (by simp [hown]), hwalk, hdesc]
  · intro db' upd h
    exact updateIssue_acyclic hst hnd hac h

/-- Witness for C8 on `fixDbPar` (issue `B` has parent `A`): trying to set
`A`'s parent to `B` — so that `A` sits in `B`'s ancestor chain — is
rejected with the circular-ancestor error. -/
theorem C8_parent_integrity_witness :
    parentPhase fixDbPar "T" "A" { parentId := some (some "B") } {} =
      .error .circularAncestor := by
  have hl : parentMap fixDbPar = [("A", none), ("B", some "A")] := by rfl
  have hac : AcyclicPM (parentMap fixDbPar) := by
    rw [hl]
    intro y f hy
    by_cases hA : y = "A"
    · subst hA
      have hpA : plookup [("A", none), ("B", some "A")] "A" = none := by rfl
      rw [hpA, pchain_none] at hy
      cases hy
    · by_cases hB : y = "B"
      · subst hB
        have hpB : plookup [("A", none), ("B", some "A")] "B" = some "A" := by rfl
        rw [hpB] at hy
        cases f with
        | zero =>
          rw [show pchain [("A", none), ("B", some "A")] 0 (some "A") = [] from rfl] at hy
          cases hy
        | succ f =>
          have hpA : plookup [("A", none), ("B", some "A")] "A" = none := by rfl
          simp only [pchain, hpA, pchain_none] at hy
          exact absurd hy (by decide)
      · have c1 : (("A" : String) == y) = false := by
          rw [beq_eq_false_iff_ne]
          exact fun e => hA e.symm
        have c2 : (("B" : String) == y) = false := by
          rw [beq_eq_false_iff_ne]
          exact fun e => hB e.symm
        have hpy : plookup [("A", none), ("B", some "A")] y = none := by
          simp [plookup, List.find?, c1, c2]
        rw [hpy, pchain_none] at hy
        cases hy
  exact (C8_parent_integrity fixDbPar "T" "A" { parentId := some (some "B") } none none 0 {}
      (by decide) (by decide) hac).2.1 (some "B") "B"
      ({ fixIssue "B" 2 "st" with parentId := some "A" }) 1 rfl rfl (by decide) (by decide)
      (by decide)

end Taskify
